/-
Verification of the compliance scheduling engine:
a shallow embedding of the due-date calculator (dueDateCalculator.ts)
and the task generator (TaskController.generateTasks), with proofs of
the stated scheduling properties.

JavaScript `Date` values are modelled as (year, month, day) triples with
month indices 0–11, exactly as the `Date(year, month, day)` constructor
normalises them; day arithmetic (`setDate`) is modelled by stepping one
calendar day at a time.  `toRD` assigns each triple the linear day count
used for weekday computation (`getDay`) and timestamp comparison.
-/
import Mathlib

set_option maxRecDepth 100000

namespace ComplianceEngine

/-- A JavaScript `Date` at day granularity: `month` is the 0-based month
index, `day` the 1-based day of month (after normalisation). -/
structure JSDate where
  year : Int
  month : Nat
  day : Int
deriving DecidableEq, Repr

/-- Gregorian leap-year test, as JS `Date` implements it. -/
def isLeap (y : Int) : Bool :=
  y % 4 == 0 && (y % 100 != 0 || y % 400 == 0)

/-- Number of days in month index `m` of year `y`. -/
def daysInMonth (y : Int) (m : Nat) : Int :=
  match m with
  | 0 => 31
  | 1 => if isLeap y then 29 else 28
  | 2 => 31
  | 3 => 30
  | 4 => 31
  | 5 => 30
  | 6 => 31
  | 7 => 31
  | 8 => 30
  | 9 => 31
  | 10 => 30
  | _ => 31

/-- Days before month index `m` in a non-leap year. -/
def monthOffset (m : Nat) : Int :=
  match m with
  | 0 => 0
  | 1 => 31
  | 2 => 59
  | 3 => 90
  | 4 => 120
  | 5 => 151
  | 6 => 181
  | 7 => 212
  | 8 => 243
  | 9 => 273
  | 10 => 304
  | _ => 334

/-- Extra leap day once past February. -/
def leapCorrection (y : Int) (m : Nat) : Int :=
  if 2 ≤ m ∧ isLeap y then 1 else 0

/-- Linear day number of a date (rata-die style); consecutive calendar
days map to consecutive integers. -/
def toRD (a : JSDate) : Int :=
  365 * a.year + (a.year - 1) / 4 - (a.year - 1) / 100 + (a.year - 1) / 400
    + monthOffset a.month + leapCorrection a.year a.month + a.day

/-- JS `Date.prototype.getDay`: 0 = Sunday … 6 = Saturday. -/
def getDay (a : JSDate) : Int := (toRD a + 6) % 7

/-- The calendar day after `a` (JS `setDate(getDate() + 1)` on a
normalised date). -/
def nextDay (a : JSDate) : JSDate :=
  if a.day < daysInMonth a.year a.month then ⟨a.year, a.month, a.day + 1⟩
  else if a.month < 11 then ⟨a.year, a.month + 1, 1⟩
  else ⟨a.year + 1, 0, 1⟩

/-- The calendar day before `a`. -/
def prevDay (a : JSDate) : JSDate :=
  if 1 < a.day then ⟨a.year, a.month, a.day - 1⟩
  else if 0 < a.month then ⟨a.year, a.month - 1, daysInMonth a.year (a.month - 1)⟩
  else ⟨a.year - 1, 11, 31⟩

/-- Step `n` calendar days forward. -/
def addDays : Nat → JSDate → JSDate
  | 0, a => a
  | n + 1, a => addDays n (nextDay a)

/-- Step `n` calendar days backward. -/
def subDays : Nat → JSDate → JSDate
  | 0, a => a
  | n + 1, a => subDays n (prevDay a)

/-- JS `new Date(y, m, d)` at day granularity: the month overflows into
the year, and the day offsets (possibly out of range, in either
direction) from the first of the resulting month. -/
def mkDate (y m d : Int) : JSDate :=
  let y' := y + m / 12
  let m' := (m % 12).toNat
  if 1 ≤ d then addDays (d - 1).toNat ⟨y', m', 1⟩
  else subDays (1 - d).toNat ⟨y', m', 1⟩

/-- A normalised calendar date, as JS `Date` always stores. -/
def Valid (a : JSDate) : Prop :=
  a.month ≤ 11 ∧ 1 ≤ a.day ∧ a.day ≤ daysInMonth a.year a.month

instance (a : JSDate) : Decidable (Valid a) := by
  unfold Valid; infer_instance

theorem daysInMonth_pos (y : Int) (m : Nat) : 1 ≤ daysInMonth y m := by
  unfold daysInMonth
  split <;> first | (split <;> norm_num) | norm_num

theorem daysInMonth_le (y : Int) (m : Nat) : daysInMonth y m ≤ 31 := by
  unfold daysInMonth
  split <;> first | (split <;> norm_num) | norm_num

theorem daysInMonth_ge (y : Int) (m : Nat) : 28 ≤ daysInMonth y m := by
  unfold daysInMonth
  split <;> first | (split <;> norm_num) | norm_num

theorem valid_nextDay {a : JSDate} (h : Valid a) : Valid (nextDay a) := by
  obtain ⟨y, m, d⟩ := a
  obtain ⟨hm, hd1, hd2⟩ := h
  simp only at hm hd1 hd2
  unfold nextDay
  split_ifs with h1 h2
  · simp only at h1
    exact ⟨hm, show (1 : Int) ≤ d + 1 by omega, show d + 1 ≤ daysInMonth y m by omega⟩
  · simp only at h2
    refine ⟨show m + 1 ≤ 11 by omega, show (1 : Int) ≤ 1 by norm_num, ?_⟩
    show (1 : Int) ≤ daysInMonth y (m + 1)
    exact daysInMonth_pos y (m + 1)
  · exact ⟨show (0 : Nat) ≤ 11 by norm_num, show (1 : Int) ≤ 1 by norm_num,
      show (1 : Int) ≤ daysInMonth (y + 1) 0 by norm_num [daysInMonth]⟩

theorem toRD_nextDay {a : JSDate} (h : Valid a) : toRD (nextDay a) = toRD a + 1 := by
  obtain ⟨y, m, d⟩ := a
  obtain ⟨hm, hd1, hd2⟩ := h
  simp only at hm hd1 hd2
  unfold nextDay
  split_ifs with h1 h2
  · show toRD ⟨y, m, d + 1⟩ = toRD ⟨y, m, d⟩ + 1
    simp [toRD]; ring
  · -- rollover to the next month within the year
    simp only at h1 h2
    have hm10 : m ≤ 10 := by omega
    have hd : d = daysInMonth y m := by omega
    show toRD ⟨y, m + 1, 1⟩ = toRD ⟨y, m, d⟩ + 1
    subst hd
    rcases Bool.eq_false_or_eq_true (isLeap y) with hL | hL <;>
      interval_cases m <;>
      simp [toRD, monthOffset, leapCorrection, daysInMonth, hL] <;>
      omega
  · -- rollover to January of the next year
    simp only at h1 h2
    have hm' : m = 11 := by omega
    subst hm'
    have hd : d = 31 := by
      simp only [daysInMonth] at hd2 h1; omega
    subst hd
    show toRD ⟨y + 1, 0, 1⟩ = toRD ⟨y, 11, 31⟩ + 1
    rcases Bool.eq_false_or_eq_true (isLeap y) with hL | hL <;>
      have hL' := hL <;>
      simp only [isLeap, Bool.and_eq_true, Bool.or_eq_true, beq_iff_eq, bne_iff_ne, ne_eq,
        Bool.and_eq_false_iff, Bool.or_eq_false_iff, beq_eq_false_iff_ne,
        bne_eq_false_iff_eq, Bool.not_eq_true, not_not] at hL' <;>
      simp [toRD, monthOffset, leapCorrection, hL] <;>
      omega

theorem valid_addDays {a : JSDate} (h : Valid a) (n : Nat) : Valid (addDays n a) := by
  induction n generalizing a with
  | zero => exact h
  | succ k ih => exact ih (valid_nextDay h)

theorem toRD_addDays {a : JSDate} (h : Valid a) (n : Nat) :
    toRD (addDays n a) = toRD a + n := by
  induction n generalizing a with
  | zero => simp [addDays]
  | succ k ih =>
    show toRD (addDays k (nextDay a)) = toRD a + (k + 1 : Nat)
    rw [ih (valid_nextDay h), toRD_nextDay h]
    push_cast
    ring

theorem addDays_add (i j : Nat) (a : JSDate) :
    addDays (i + j) a = addDays j (addDays i a) := by
  induction i generalizing a with
  | zero => simp [addDays]
  | succ k ih =>
    have h : k + 1 + j = (k + j) + 1 := by omega
    rw [h]
    show addDays (k + j) (nextDay a) = addDays j (addDays k (nextDay a))
    exact ih (nextDay a)

theorem addDays_in_month {y : Int} {m : Nat} {d : Int} (k : Nat)
    (hm : m ≤ 11) (hd1 : 1 ≤ d) (hk : d + k ≤ daysInMonth y m) :
    addDays k ⟨y, m, d⟩ = ⟨y, m, d + k⟩ := by
  induction k generalizing d with
  | zero => simp [addDays]
  | succ n ih =>
    show addDays n (nextDay ⟨y, m, d⟩) = _
    have hstep : nextDay ⟨y, m, d⟩ = ⟨y, m, d + 1⟩ := by
      unfold nextDay
      rw [if_pos]
      show d < daysInMonth y m
      push_cast at hk
      omega
    rw [hstep, ih (by omega) (by push_cast at hk ⊢; omega)]
    congr 1
    push_cast
    ring

theorem nextDay_last {y : Int} {m : Nat} (hm : m ≤ 11) :
    nextDay ⟨y, m, daysInMonth y m⟩ =
      if m ≤ 10 then (⟨y, m + 1, 1⟩ : JSDate) else ⟨y + 1, 0, 1⟩ := by
  unfold nextDay
  simp only
  rw [if_neg (lt_irrefl (daysInMonth y m))]
  by_cases h2 : m ≤ 10
  · rw [if_pos (by omega : m < 11), if_pos h2]
  · rw [if_neg (by omega : ¬ m < 11), if_neg h2]

/-- Stepping across exactly one month boundary. -/
theorem addDays_cross {y : Int} {m : Nat} {d : Int} (k : Nat)
    (hm : m ≤ 11) (hd1 : 1 ≤ d) (hd2 : d ≤ daysInMonth y m)
    (hcross : daysInMonth y m < d + k) (hbound : d + k ≤ daysInMonth y m + 28) :
    addDays k ⟨y, m, d⟩ =
      if m ≤ 10 then (⟨y, m + 1, d + k - daysInMonth y m⟩ : JSDate)
      else ⟨y + 1, 0, d + k - 31⟩ := by
  obtain ⟨s, hsv⟩ : ∃ s : Nat, (s : Int) = daysInMonth y m - d :=
    ⟨(daysInMonth y m - d).toNat, by omega⟩
  obtain ⟨t, htv⟩ : ∃ t : Nat, (t : Int) = d + k - daysInMonth y m - 1 :=
    ⟨(d + k - daysInMonth y m - 1).toNat, by omega⟩
  have hk : k = s + 1 + t := by omega
  subst hk
  rw [addDays_add, addDays_add]
  rw [addDays_in_month s hm hd1 (by omega)]
  have hlast : (⟨y, m, d + s⟩ : JSDate) = ⟨y, m, daysInMonth y m⟩ := by
    congr 1
    omega
  rw [hlast]
  show addDays t (nextDay ⟨y, m, daysInMonth y m⟩) = _
  rw [nextDay_last hm]
  have ht27 : (t : Int) ≤ 27 := by omega
  by_cases hcase : m ≤ 10
  · rw [if_pos hcase, if_pos hcase,
      addDays_in_month t (by omega) (by norm_num)
        (by have := daysInMonth_ge y (m + 1); omega)]
    congr 1
    omega
  · rw [if_neg hcase, if_neg hcase,
      addDays_in_month t (by norm_num) (by norm_num)
        (by have := daysInMonth_ge (y + 1) 0; omega)]
    have hm11 : m = 11 := by omega
    subst hm11
    simp only [daysInMonth] at hsv
    congr 1
    omega

theorem valid_prevDay {a : JSDate} (h : Valid a) : Valid (prevDay a) := by
  obtain ⟨y, m, d⟩ := a
  obtain ⟨hm, hd1, hd2⟩ := h
  simp only at hm hd1 hd2
  unfold prevDay
  split_ifs with h1 h2 <;> simp only at h1
  · exact ⟨hm, show (1 : Int) ≤ d - 1 by omega, show d - 1 ≤ daysInMonth y m by omega⟩
  · exact ⟨show m - 1 ≤ 11 by omega, daysInMonth_pos y (m - 1), le_refl _⟩
  · exact ⟨show (11 : Nat) ≤ 11 by norm_num, show (1 : Int) ≤ 31 by norm_num,
      show (31 : Int) ≤ daysInMonth (y - 1) 11 by norm_num [daysInMonth]⟩

theorem valid_subDays {a : JSDate} (h : Valid a) (n : Nat) : Valid (subDays n a) := by
  induction n generalizing a with
  | zero => exact h
  | succ k ih => exact ih (valid_prevDay h)

theorem valid_mkDate (y m d : Int) : Valid (mkDate y m d) := by
  have hbase : Valid ⟨y + m / 12, (m % 12).toNat, 1⟩ := by
    refine ⟨?_, le_refl _, daysInMonth_pos _ _⟩
    show (m % 12).toNat ≤ 11
    have := Int.emod_nonneg m (by norm_num : (12 : Int) ≠ 0)
    have := Int.emod_lt_of_pos m (by norm_num : (0 : Int) < 12)
    omega
  unfold mkDate
  split_ifs with h1
  · exact valid_addDays hbase _
  · exact valid_subDays hbase _

/-- Evaluating `new Date(y, m, d)` with an in-range month index and day just yields
that triple. -/
theorem mkDate_eq {y : Int} {m : Nat} {d : Int} (hm : m ≤ 11) (hd1 : 1 ≤ d)
    (hd2 : d ≤ daysInMonth y m) : mkDate y m d = ⟨y, m, d⟩ := by
  unfold mkDate
  have e1 : (m : Int) / 12 = 0 := by omega
  have e2 : ((m : Int) % 12).toNat = m := by omega
  rw [if_pos hd1]
  simp only [e1, e2, add_zero]
  rw [addDays_in_month _ hm (by norm_num) (by omega)]
  congr 1
  omega

/-! ## The due date calculator (`dueDateCalculator.ts`) -/

/-- Prisma `Periodicity` enum. -/
inductive Periodicity where
  | MONTHLY
  | QUARTERLY
  | HALF_YEARLY
  | YEARLY
  | WEEKLY
  | DAILY
  | ONE_TIME
  | EVENT_BASED
deriving DecidableEq, Repr

/-- The `dueDateRules` JSON payload: each field is absent or a value. -/
structure DueDateRules where
  dueDay : Option Int := none
  dueMonth : Option Int := none
  dayOfWeek : Option Int := none
  specificDate : Option JSDate := none
deriving DecidableEq, Repr

/-- Catalog compliance record (the fields the engine reads). -/
structure Compliance where
  id : String
  name : String := ""
  description : String := ""
  category : String := ""
  periodicity : Periodicity
  dueDateRules : Option DueDateRules := none
  entityTypes : List String := []
  isActive : Bool := true
deriving DecidableEq, Repr

structure IndianHoliday where
  date : JSDate
  name : String
  isNational : Bool
deriving DecidableEq, Repr

/-- The per-year holiday list built by `initializeHolidays`. -/
def holidayListFor (year : Int) : List IndianHoliday :=
  [ ⟨mkDate year 0 26, "Republic Day", true⟩,
    ⟨mkDate year 7 15, "Independence Day", true⟩,
    ⟨mkDate year 9 2, "Gandhi Jayanti", true⟩,
    ⟨mkDate year 2 8, "Holi", false⟩,
    ⟨mkDate year 3 14, "Ram Navami", false⟩,
    ⟨mkDate year 7 19, "Janmashtami", false⟩,
    ⟨mkDate year 9 24, "Dussehra", false⟩,
    ⟨mkDate year 10 12, "Diwali", false⟩,
    ⟨mkDate year 11 25, "Christmas", true⟩ ]

/-- The calculator's state: `initializeHolidays` fills the holiday map for
`currentYear .. currentYear + 2`, where `currentYear` is the construction
time clock year. -/
structure DueDateCalculator where
  currentYear : Int
deriving DecidableEq, Repr

/-- Models `indianHolidays.get(year) || []`. -/
def DueDateCalculator.getHolidays (cal : DueDateCalculator) (year : Int) : List IndianHoliday :=
  if year = cal.currentYear ∨ year = cal.currentYear + 1 ∨ year = cal.currentYear + 2 then
    holidayListFor year
  else []

def DueDateCalculator.isHoliday (cal : DueDateCalculator) (date : JSDate) : Bool :=
  (cal.getHolidays date.year).any (fun h => h.date == date)

/-- The `while (getDay() === 0 || getDay() === 6)` advance loop, with fuel
(two iterations always suffice on real dates). -/
def skipWeekendF : Nat → JSDate → JSDate
  | 0, a => a
  | fuel + 1, a =>
    if getDay a = 0 ∨ getDay a = 6 then skipWeekendF fuel (nextDay a) else a

/-- The `do ... while (weekend or holiday)` advance loop, with fuel (at
most 17 iterations are ever needed, proved below). -/
def holidayAdvance (holidays : List IndianHoliday) : Nat → JSDate → JSDate
  | 0, a => a
  | fuel + 1, a =>
    let a' := nextDay a
    if getDay a' = 0 ∨ getDay a' = 6 ∨ holidays.any (fun h => h.date == a') then
      holidayAdvance holidays fuel a'
    else a'

def DueDateCalculator.adjustForHolidaysAndWeekends (cal : DueDateCalculator)
    (date : JSDate) : JSDate :=
  let adjusted := skipWeekendF 7 date
  let holidays := cal.getHolidays adjusted.year
  if holidays.any (fun h => h.date == adjusted) then holidayAdvance holidays 25 adjusted
  else adjusted

def DueDateCalculator.getNextBusinessDay (cal : DueDateCalculator) (date : JSDate) : JSDate :=
  cal.adjustForHolidaysAndWeekends date

/-- JS `x || null` on an optional number field: `0` is falsy and collapses
to `null`. -/
def truthyInt : Option Int → Option Int
  | some v => if v = 0 then none else some v
  | none => none

def extractDueDayFromRules (rules : Option DueDateRules) : Option Int :=
  match rules with
  | none => none
  | some r => truthyInt r.dueDay

def extractDueMonthFromRules (rules : Option DueDateRules) : Option Int :=
  match rules with
  | none => none
  | some r => truthyInt r.dueMonth

def extractDayOfWeekFromRules (rules : Option DueDateRules) : Option Int :=
  match rules with
  | none => none
  | some r => truthyInt r.dayOfWeek

def extractSpecificDateFromRules (rules : Option DueDateRules) : Option JSDate :=
  match rules with
  | none => none
  | some r => r.specificDate

def calculateMonthlyDueDates (c : Compliance) (year : Int) : List JSDate :=
  let dueDay := (extractDueDayFromRules c.dueDateRules).getD 15
  (List.range 12).map (fun (month : Nat) =>
    let dueDate := mkDate year (month : Int) dueDay
    -- adjust if the day does not exist in the month (e.g. Feb 30)
    if dueDate.month ≠ month then mkDate dueDate.year (dueDate.month : Int) 0
    else dueDate)

/-- Q1–Q3 are due in April/July/October of `year`; Q4 in January of
`year + 1` (month index 0). -/
def calculateQuarterlyDueDates (c : Compliance) (year : Int) : List JSDate :=
  let dueDay := (extractDueDayFromRules c.dueDateRules).getD 15
  ([3, 6, 9, 0] : List Nat).map (fun (month : Nat) =>
    let dueYear := if month = 0 then year + 1 else year
    mkDate dueYear (month : Int) dueDay)

def calculateHalfYearlyDueDates (c : Compliance) (year : Int) : List JSDate :=
  let dueDay := (extractDueDayFromRules c.dueDateRules).getD 15
  [mkDate year 9 dueDay, mkDate (year + 1) 3 dueDay]

def calculateYearlyDueDates (c : Compliance) (year : Int) : List JSDate :=
  let dueDay := (extractDueDayFromRules c.dueDateRules).getD 15
  let dueMonth := (extractDueMonthFromRules c.dueDateRules).getD 3
  [mkDate year dueMonth dueDay]

/-- Fueled form of `while (currentDate.getDay() !== dayOfWeek) advance one day`. -/
def findWeekday : Nat → Int → JSDate → JSDate
  | 0, _, cur => cur
  | fuel + 1, target, cur =>
    if getDay cur ≠ target then findWeekday fuel target (nextDay cur) else cur

/-- Fueled form of the weekly loop `while (currentDate <= endDate) push; +7 days`. -/
def weeklyLoop : Nat → JSDate → JSDate → List JSDate
  | 0, _, _ => []
  | fuel + 1, cur, endDate =>
    if toRD cur ≤ toRD endDate then cur :: weeklyLoop fuel (addDays 7 cur) endDate
    else []

def calculateWeeklyDueDates (c : Compliance) (year : Int) : List JSDate :=
  let dayOfWeek := (extractDayOfWeekFromRules c.dueDateRules).getD 1
  let startDate := mkDate year 0 1
  let endDate := mkDate year 11 31
  weeklyLoop 60 (findWeekday 7 dayOfWeek startDate) endDate

/-- Fueled form of the daily loop `while (currentDate <= endDate) push if weekday; +1 day`. -/
def dailyLoop : Nat → JSDate → JSDate → List JSDate
  | 0, _, _ => []
  | fuel + 1, cur, endDate =>
    if toRD cur ≤ toRD endDate then
      (if getDay cur ≠ 0 ∧ getDay cur ≠ 6 then [cur] else [])
        ++ dailyLoop fuel (nextDay cur) endDate
    else []

def calculateDailyDueDates (_c : Compliance) (year : Int) : List JSDate :=
  dailyLoop 370 (mkDate year 0 1) (mkDate year 11 31)

def calculateOneTimeDueDates (c : Compliance) (year : Int) : List JSDate :=
  match extractSpecificDateFromRules c.dueDateRules with
  | some specificDate => if specificDate.year = year then [specificDate] else []
  | none => []

/-- The `switch (compliance.periodicity)` dispatch. -/
def rawDueDates (c : Compliance) (year : Int) : List JSDate :=
  match c.periodicity with
  | .MONTHLY => calculateMonthlyDueDates c year
  | .QUARTERLY => calculateQuarterlyDueDates c year
  | .HALF_YEARLY => calculateHalfYearlyDueDates c year
  | .YEARLY => calculateYearlyDueDates c year
  | .WEEKLY => calculateWeeklyDueDates c year
  | .DAILY => calculateDailyDueDates c year
  | .ONE_TIME => calculateOneTimeDueDates c year
  | .EVENT_BASED => []

/-- Exceptions thrown inside the try block of `calculateDueDates`,
modelled as `Except` values. -/
inductive CalcError where
  | internalError (msg : String)
deriving DecidableEq, Repr

/-- The body of the try block: dispatch on periodicity, then adjust every
raw date for holidays and weekends. -/
def DueDateCalculator.calcBody (cal : DueDateCalculator) (c : Compliance) (year : Int) :
    Except CalcError (List JSDate) :=
  .ok ((rawDueDates c year).map cal.adjustForHolidaysAndWeekends)

/-- The try/catch wrapper of `calculateDueDates`: a thrown exception is
caught and an empty list returned. -/
def calculateDueDatesWith (body : Compliance → Int → Except CalcError (List JSDate))
    (c : Compliance) (year : Int) : List JSDate :=
  match body c year with
  | .ok ds => ds
  | .error _ => []

def DueDateCalculator.calculateDueDates (cal : DueDateCalculator) (c : Compliance)
    (year : Int) : List JSDate :=
  calculateDueDatesWith cal.calcBody c year

/-! ## The task generator (`TaskController.generateTasks`) -/

structure Entity where
  id : String
  tenantId : String
  clientId : String
  entityType : String
  legalName : String := ""
deriving DecidableEq, Repr

structure Task where
  tenantId : String
  clientId : String
  entityId : String
  complianceId : Option String
  title : String
  description : String
  taskType : String
  dueDate : JSDate
  priority : String
  createdBy : String
  tags : List String
deriving DecidableEq, Repr

structure AuthUser where
  id : String
  tenantId : String
deriving DecidableEq, Repr

/-- The catalog and entity tables read by the generator. -/
structure Db where
  entities : List Entity
  compliances : List Compliance
deriving Repr

inductive StoreError where
  | uniquenessViolation
  | otherFailure (msg : String)
deriving DecidableEq, Repr

inductive GenError where
  | notFound (msg : String)
  | storeFailure (e : StoreError)
deriving DecidableEq, Repr

structure GenResult where
  message : String
  tasksCreated : Nat
deriving DecidableEq, Repr

/-- Compliance selection: a non-empty explicit `complianceIds` list is
filtered by id and active flag only; otherwise the active catalog is
filtered by the entity's type. -/
def selectCompliances (db : Db) (entity : Entity) :
    Option (List String) → List Compliance
  | some (id0 :: ids) =>
    db.compliances.filter (fun c => (id0 :: ids).contains c.id && c.isActive)
  | _ =>
    db.compliances.filter (fun c => c.isActive && c.entityTypes.contains entity.entityType)

/-- Models `new Date(dueDate.getFullYear(), dueDate.getMonth(), 1)`. -/
def monthWindowStart (d : JSDate) : JSDate := mkDate d.year (d.month : Int) 1

/-- Models `new Date(dueDate.getFullYear(), dueDate.getMonth() + 1, 1)`. -/
def monthWindowNext (d : JSDate) : JSDate := mkDate d.year ((d.month : Int) + 1) 1

/-- The `findFirst` filter used to decide whether a task already exists
for this (tenant, entity, compliance, month-of-due-date). -/
def taskMatches (tenantId entityId complianceId : String) (dueDate : JSDate)
    (t : Task) : Bool :=
  t.tenantId == tenantId && t.entityId == entityId &&
    t.complianceId == some complianceId &&
    decide (toRD (monthWindowStart dueDate) ≤ toRD t.dueDate) &&
    decide (toRD t.dueDate < toRD (monthWindowNext dueDate))

def mkTask (user : AuthUser) (entityId : String) (entity : Entity) (c : Compliance)
    (dueDate : JSDate) : Task :=
  { tenantId := user.tenantId
    clientId := entity.clientId
    entityId := entityId
    complianceId := some c.id
    title := c.name ++ " - " ++ entity.legalName
    description := c.description
    taskType := "COMPLIANCE"
    dueDate := dueDate
    priority := "MEDIUM"
    createdBy := user.id
    tags := [c.category, entity.entityType] }

/-- The staging double loop: for each applicable compliance and each of
its due dates, stage a new task unless one already exists in the store
for the same month. -/
def stageTasks (cal : DueDateCalculator) (user : AuthUser) (entityId : String)
    (entity : Entity) (year : Int) (compliances : List Compliance)
    (store : List Task) : List Task :=
  compliances.flatMap (fun c =>
    (cal.calculateDueDates c year).filterMap (fun dueDate =>
      match store.find? (taskMatches user.tenantId entityId c.id dueDate) with
      | some _ => none
      | none => some (mkTask user entityId entity c dueDate)))

/-- Models `TaskController.generateTasks`, parameterised over the `createMany`
bulk insert (which may fail with a store error).  Returns the response
payload and the resulting task store. -/
def generateTasksWith (insert : List Task → Except StoreError Nat)
    (cal : DueDateCalculator) (db : Db) (user : AuthUser) (entityId : String)
    (year : Int) (complianceIds : Option (List String)) (store : List Task) :
    Except GenError (GenResult × List Task) :=
  match db.entities.find? (fun e => e.id == entityId && e.tenantId == user.tenantId) with
  | none => .error (.notFound "Entity not found")
  | some entity =>
    let tasksToCreate :=
      stageTasks cal user entityId entity year (selectCompliances db entity complianceIds) store
    if tasksToCreate.isEmpty then
      .ok ({ message := "No new tasks to generate", tasksCreated := 0 }, store)
    else
      match insert tasksToCreate with
      | .error e => .error (.storeFailure e)
      | .ok n =>
        .ok ({ message := toString n ++ " tasks generated successfully", tasksCreated := n },
          store ++ tasksToCreate)

/-- Models `prisma.task.createMany` under normal operation: inserts everything
and reports the inserted count. -/
def defaultInsert : List Task → Except StoreError Nat := fun ts => .ok ts.length

def generateTasks (cal : DueDateCalculator) (db : Db) (user : AuthUser)
    (entityId : String) (year : Int) (complianceIds : Option (List String))
    (store : List Task) : Except GenError (GenResult × List Task) :=
  generateTasksWith defaultInsert cal db user entityId year complianceIds store

/-! ## Evaluation lemmas for `mkDate` -/

theorem coe_div12 {m : Nat} (hm : m ≤ 11) : (m : Int) / 12 = 0 := by omega

theorem coe_mod12_toNat {m : Nat} (hm : m ≤ 11) : ((m : Int) % 12).toNat = m := by omega

/-- Evaluating `new Date(y, m, d)` with an overflowing day lands in the next month. -/
theorem mkDate_overflow {y : Int} {m : Nat} {d : Int} (hm : m ≤ 10)
    (hcross : daysInMonth y m < d) (hb : d ≤ daysInMonth y m + 28) :
    mkDate y m d = ⟨y, m + 1, d - daysInMonth y m⟩ := by
  have hd2 : 2 ≤ d := by have := daysInMonth_ge y m; omega
  unfold mkDate
  rw [if_pos (by omega : (1 : Int) ≤ d)]
  simp only [coe_div12 (by omega : m ≤ 11), coe_mod12_toNat (by omega : m ≤ 11), add_zero]
  rw [addDays_cross (d - 1).toNat (by omega) (by norm_num) (daysInMonth_pos y m)
      (by omega) (by omega)]
  rw [if_pos hm]
  congr 1
  omega

/-- Models `setDate(0)`: day zero backs up to the last day of the previous
month (within the same year, for positive month index). -/
theorem mkDate_day_zero {y : Int} {m : Nat} (hm1 : 1 ≤ m) (hm : m ≤ 11) :
    mkDate y m 0 = ⟨y, m - 1, daysInMonth y (m - 1)⟩ := by
  unfold mkDate
  rw [if_neg (by norm_num : ¬ (1 : Int) ≤ 0)]
  simp only [coe_div12 hm, coe_mod12_toNat hm, add_zero]
  show subDays 1 ⟨y, m, 1⟩ = _
  show subDays 0 (prevDay ⟨y, m, 1⟩) = _
  unfold prevDay
  rw [if_neg (by norm_num : ¬ (1 : Int) < 1), if_pos (by simpa using by omega : 0 < m)]
  rfl

/-- The body of the monthly loop: the raw date is the due day clamped to
the month's length. -/
theorem monthlyRaw_eq {y dd : Int} (m : Nat) (hm : m ≤ 11) (h1 : 1 ≤ dd) (h31 : dd ≤ 31) :
    (if (mkDate y (m : Int) dd).month ≠ m then
       mkDate (mkDate y (m : Int) dd).year ((mkDate y (m : Int) dd).month : Int) 0
     else mkDate y (m : Int) dd)
    = if dd ≤ daysInMonth y m then (⟨y, m, dd⟩ : JSDate) else ⟨y, m, daysInMonth y m⟩ := by
  by_cases hc : dd ≤ daysInMonth y m
  · rw [if_pos hc]
    have he : mkDate y (m : Int) dd = ⟨y, m, dd⟩ := mkDate_eq hm h1 hc
    simp only [he, ne_eq]
    rw [if_neg (by simp)]
  · rw [if_neg hc]
    have hm10 : m ≤ 10 := by
      by_contra hc2
      have h11 : m = 11 := by omega
      rw [h11] at hc
      simp only [daysInMonth] at hc
      omega
    have he : mkDate y (m : Int) dd = ⟨y, m + 1, dd - daysInMonth y m⟩ :=
      mkDate_overflow hm10 (by omega) (by have := daysInMonth_ge y m; omega)
    simp only [he, ne_eq]
    rw [if_pos (by simp)]
    show mkDate y (↑(m + 1)) 0 = _
    rw [mkDate_day_zero (by omega) (by omega)]
    simp

theorem calculateMonthlyDueDates_eq (c : Compliance) (y : Int) :
    calculateMonthlyDueDates c y =
      (List.range 12).map (fun (month : Nat) =>
        let dueDate := mkDate y (month : Int) ((extractDueDayFromRules c.dueDateRules).getD 15)
        if dueDate.month ≠ month then mkDate dueDate.year (dueDate.month : Int) 0
        else dueDate) := rfl

/-- C6 (general form): with `1 ≤ dueDay ≤ 31`, any month the due day
overflows yields its last day. -/
theorem monthly_overflow_clamps (c : Compliance) (y dd : Int)
    (hdd : (extractDueDayFromRules c.dueDateRules).getD 15 = dd)
    (h1 : 1 ≤ dd) (h31 : dd ≤ 31) :
    ∀ m : Nat, m ≤ 11 → daysInMonth y m < dd →
      (calculateMonthlyDueDates c y)[m]? = some ⟨y, m, daysInMonth y m⟩ := by
  intro m hm hover
  rw [calculateMonthlyDueDates_eq]
  simp only [hdd]
  rw [List.getElem?_map, List.getElem?_range (by omega : m < 12)]
  simp only [Option.map_some']
  rw [monthlyRaw_eq m hm h1 h31]
  rw [if_neg (by omega)]

/-! ## Concrete fixtures used by witnesses and counterexamples -/

def calFor2024 : DueDateCalculator := ⟨2024⟩

def calFor2026 : DueDateCalculator := ⟨2026⟩

def quarterlyCompliance : Compliance := { id := "cmp-q", periodicity := .QUARTERLY }

def monthly30 : Compliance :=
  { id := "cmp-m30", periodicity := .MONTHLY, dueDateRules := some { dueDay := some 30 } }

def monthly31 : Compliance :=
  { id := "cmp-m31", periodicity := .MONTHLY, dueDateRules := some { dueDay := some 31 },
    entityTypes := ["LLP"] }

def yearlySample : Compliance :=
  { id := "cmp-y", periodicity := .YEARLY, entityTypes := ["LLP"] }

def entitySample : Entity :=
  { id := "ent-1", tenantId := "t-1", clientId := "cl-1", entityType := "LLP",
    legalName := "Acme LLP" }

def userSample : AuthUser := { id := "u-1", tenantId := "t-1" }

def dbMonthly : Db := { entities := [entitySample], compliances := [monthly31] }

def dbYearly : Db := { entities := [entitySample], compliances := [yearlySample] }

/-! ## C6 — monthly overflow clamps to the last day of the month -/

/-- C6: for every MONTHLY compliance whose `rule.dueDay` (a day-of-month
value, `1 ≤ dueDay ≤ 31`) overflows a month's length, the raw date for
that month is clamped to the month's last day and never rolls into the
next month; in particular with `dueDay = 30` the February raw date is
Feb 28 (Feb 29 in a leap year), never a date in March. -/
theorem monthly_dueDay_overflow_clamped (c : Compliance) (y dd : Int)
    (hdd : (extractDueDayFromRules c.dueDateRules).getD 15 = dd)
    (h1 : 1 ≤ dd) (h31 : dd ≤ 31) :
    (∀ m : Nat, m ≤ 11 → daysInMonth y m < dd →
        (calculateMonthlyDueDates c y)[m]? = some ⟨y, m, daysInMonth y m⟩)
    ∧ (dd = 30 →
        (calculateMonthlyDueDates c y)[1]? =
          some ⟨y, 1, if isLeap y then 29 else 28⟩) := by
  refine ⟨monthly_overflow_clamps c y dd hdd h1 h31, ?_⟩
  intro h30
  subst h30
  have hfeb : daysInMonth y 1 < 30 := by
    simp only [daysInMonth]
    split <;> omega
  have := monthly_overflow_clamps c y 30 hdd h1 h31 1 (by norm_num) hfeb
  simpa only [daysInMonth] using this

/-- Witness for C6 at `dueDay = 30`, year 2026. -/
theorem monthly_dueDay_overflow_clamped_witness :
    ((extractDueDayFromRules monthly30.dueDateRules).getD 15 = 30
      ∧ (1 : Int) ≤ 30 ∧ (30 : Int) ≤ 31)
    ∧ ((∀ m : Nat, m ≤ 11 → daysInMonth 2026 m < 30 →
          (calculateMonthlyDueDates monthly30 2026)[m]? =
            some ⟨2026, m, daysInMonth 2026 m⟩)
        ∧ ((30 : Int) = 30 →
          (calculateMonthlyDueDates monthly30 2026)[1]? =
            some ⟨2026, 1, if isLeap 2026 then 29 else 28⟩)) :=
  ⟨⟨by decide, by norm_num, by norm_num⟩,
    monthly_dueDay_overflow_clamped monthly30 2026 30 (by decide) (by norm_num) (by norm_num)⟩

/-! ## C1 — the quarterly anchor months -/

/-- The quarterly anchors, computed: the fourth anchor is January of the
next year (month index 0), not April. -/
theorem calculateQuarterlyDueDates_eq (c : Compliance) (y dd : Int)
    (hdd : (extractDueDayFromRules c.dueDateRules).getD 15 = dd)
    (h1 : 1 ≤ dd) (h30 : dd ≤ 30) :
    calculateQuarterlyDueDates c y =
      [⟨y, 3, dd⟩, ⟨y, 6, dd⟩, ⟨y, 9, dd⟩, ⟨y + 1, 0, dd⟩] := by
  unfold calculateQuarterlyDueDates
  simp only [hdd]
  show [mkDate y ((3 : Nat) : Int) dd, mkDate y ((6 : Nat) : Int) dd,
    mkDate y ((9 : Nat) : Int) dd, mkDate (y + 1) ((0 : Nat) : Int) dd] = _
  rw [mkDate_eq (show (3 : Nat) ≤ 11 by norm_num) h1
      (show dd ≤ daysInMonth y 3 by simpa [daysInMonth] using h30),
    mkDate_eq (show (6 : Nat) ≤ 11 by norm_num) h1
      (show dd ≤ daysInMonth y 6 by simp only [daysInMonth]; omega),
    mkDate_eq (show (9 : Nat) ≤ 11 by norm_num) h1
      (show dd ≤ daysInMonth y 9 by simp only [daysInMonth]; omega),
    mkDate_eq (show (0 : Nat) ≤ 11 by norm_num) h1
      (show dd ≤ daysInMonth (y + 1) 0 by simp only [daysInMonth]; omega)]

/-- C1 counterexample: for the default QUARTERLY rule in 2024, the due
dates are not anchored at April/July/October/April(next): the fourth
date falls in January 2025 (month index 0), so mapping each date to its
(year, month) does not give the anchor profile the claim states. -/
theorem quarterly_fourth_anchor_not_april :
    ¬ ((calFor2024.calculateDueDates quarterlyCompliance 2024).map
        (fun d => (d.year, d.month)) = [(2024, 3), (2024, 6), (2024, 9), (2025, 3)]) := by
  intro h
  have hraw : rawDueDates quarterlyCompliance 2024 =
      [⟨2024, 3, 15⟩, ⟨2024, 6, 15⟩, ⟨2024, 9, 15⟩, ⟨2025, 0, 15⟩] := by
    show calculateQuarterlyDueDates quarterlyCompliance 2024 = _
    exact calculateQuarterlyDueDates_eq _ _ 15 rfl (by norm_num) (by norm_num)
  have hlist : calFor2024.calculateDueDates quarterlyCompliance 2024 =
      (([⟨2024, 3, 15⟩, ⟨2024, 6, 15⟩, ⟨2024, 9, 15⟩, ⟨2025, 0, 15⟩] : List JSDate)).map
        calFor2024.adjustForHolidaysAndWeekends := by
    show calculateDueDatesWith calFor2024.calcBody quarterlyCompliance 2024 = _
    unfold calculateDueDatesWith DueDateCalculator.calcBody
    rw [hraw]
  have hadj : calFor2024.adjustForHolidaysAndWeekends ⟨2025, 0, 15⟩ = ⟨2025, 0, 15⟩ := by
    decide
  have hmap := congrArg (fun l => l[3]?) h
  rw [hlist] at hmap
  simp only [List.getElem?_map] at hmap
  rw [show (([⟨2024, 3, 15⟩, ⟨2024, 6, 15⟩, ⟨2024, 9, 15⟩, ⟨2025, 0, 15⟩] : List JSDate))[3]? =
      some ⟨2025, 0, 15⟩ from rfl] at hmap
  simp only [Option.map_some', hadj] at hmap
  simp at hmap

/-! ## C8 — exceptions during calculation yield an empty list -/

/-- C8: if the body of `calculateDueDates` (the periodicity dispatch plus
holiday adjustment, whose exceptions are modelled as `Except.error`)
raises, the wrapper catches it and returns the empty list rather than
propagating, so a caller iterating over many compliances is not
aborted. -/
theorem calc_exception_caught_returns_empty
    (body : Compliance → Int → Except CalcError (List JSDate))
    (c : Compliance) (y : Int) (e : CalcError) (h : body c y = .error e) :
    calculateDueDatesWith body c y = [] := by
  unfold calculateDueDatesWith
  rw [h]

/-- Witness for C8 with an always-throwing body. -/
theorem calc_exception_caught_returns_empty_witness :
    ((fun (_ : Compliance) (_ : Int) =>
        (Except.error (CalcError.internalError "boom") : Except CalcError (List JSDate)))
      quarterlyCompliance 2024 = .error (.internalError "boom"))
    ∧ calculateDueDatesWith
        (fun _ _ => .error (.internalError "boom")) quarterlyCompliance 2024 = [] :=
  ⟨rfl, calc_exception_caught_returns_empty _ quarterlyCompliance 2024
    (.internalError "boom") rfl⟩

/-! ## C10 — explicit compliance ids bypass the entity-type filter -/

/-- C10: with a non-empty explicit `complianceIds` list the entity-type
applicability filter is bypassed — an active compliance whose
entity-type set does not contain the entity's type is still selected —
while inactive compliances are excluded under every selection mode. -/
theorem explicit_ids_bypass_type_filter_inactive_excluded :
    (∀ (db : Db) (e : Entity) (i0 : String) (ids : List String) (c : Compliance),
      c ∈ db.compliances → c.id ∈ i0 :: ids → c.isActive = true →
      e.entityType ∉ c.entityTypes →
      c ∈ selectCompliances db e (some (i0 :: ids)))
    ∧ (∀ (db : Db) (e : Entity) (cids : Option (List String)) (c : Compliance),
      c ∈ selectCompliances db e cids → c.isActive = true) := by
  constructor
  · intro db e i0 ids c hmem hid hact _hnotype
    show c ∈ db.compliances.filter (fun c => (i0 :: ids).contains c.id && c.isActive)
    rw [List.mem_filter]
    refine ⟨hmem, ?_⟩
    rw [Bool.and_eq_true]
    refine ⟨?_, hact⟩
    show (i0 :: ids).elem c.id = true
    exact List.elem_iff.mpr hid
  · intro db e cids c hsel
    match cids with
    | none =>
      rw [show selectCompliances db e none =
        db.compliances.filter (fun c => c.isActive && c.entityTypes.contains e.entityType)
        from rfl, List.mem_filter, Bool.and_eq_true] at hsel
      exact hsel.2.1
    | some [] =>
      rw [show selectCompliances db e (some []) =
        db.compliances.filter (fun c => c.isActive && c.entityTypes.contains e.entityType)
        from rfl, List.mem_filter, Bool.and_eq_true] at hsel
      exact hsel.2.1
    | some (i0 :: ids) =>
      rw [show selectCompliances db e (some (i0 :: ids)) =
        db.compliances.filter (fun c => (i0 :: ids).contains c.id && c.isActive)
        from rfl, List.mem_filter, Bool.and_eq_true] at hsel
      exact hsel.2.2

/-- Witness for C10: `monthly31` (type set `["LLP"]`) is selected for a
non-LLP entity when listed explicitly, and a selected compliance is
active. -/
theorem explicit_ids_bypass_type_filter_inactive_excluded_witness :
    (monthly31 ∈ selectCompliances
      { entities := [], compliances := [monthly31] }
      { id := "e9", tenantId := "t9", clientId := "c9", entityType := "PVT" }
      (some ["cmp-m31"]))
    ∧ monthly31.isActive = true :=
  ⟨explicit_ids_bypass_type_filter_inactive_excluded.1
      { entities := [], compliances := [monthly31] }
      { id := "e9", tenantId := "t9", clientId := "c9", entityType := "PVT" }
      "cmp-m31" [] monthly31 (by decide) (by decide) (by decide) (by decide),
    explicit_ids_bypass_type_filter_inactive_excluded.2
      { entities := [], compliances := [monthly31] }
      { id := "e9", tenantId := "t9", clientId := "c9", entityType := "PVT" }
      (some ["cmp-m31"]) monthly31 (by decide)⟩

/-! ## Evaluation lemmas for the generator on concrete scenarios -/

instance {ε α : Type} [DecidableEq ε] [DecidableEq α] : DecidableEq (Except ε α) :=
  fun a b =>
    match a, b with
    | .error e1, .error e2 =>
      if h : e1 = e2 then isTrue (by rw [h]) else isFalse (by intro hc; cases hc; exact h rfl)
    | .ok v1, .ok v2 =>
      if h : v1 = v2 then isTrue (by rw [h]) else isFalse (by intro hc; cases hc; exact h rfl)
    | .error _, .ok _ => isFalse (by intro hc; cases hc)
    | .ok _, .error _ => isFalse (by intro hc; cases hc)

/-- Unfolding `generateTasksWith` once the entity lookup, compliance
selection and staging results are known. -/
theorem generateTasksWith_eval (insert : List Task → Except StoreError Nat)
    (cal : DueDateCalculator) (db : Db) (user : AuthUser) (entityId : String)
    (year : Int) (cids : Option (List String)) (store : List Task)
    (entity : Entity) (comps : List Compliance) (staged : List Task)
    (hfind : db.entities.find? (fun e => e.id == entityId && e.tenantId == user.tenantId)
      = some entity)
    (hsel : selectCompliances db entity cids = comps)
    (hstage : stageTasks cal user entityId entity year comps store = staged) :
    generateTasksWith insert cal db user entityId year cids store =
      (if staged.isEmpty then
        .ok ({ message := "No new tasks to generate", tasksCreated := 0 }, store)
      else
        match insert staged with
        | .error e => .error (.storeFailure e)
        | .ok n =>
          .ok ({ message := toString n ++ " tasks generated successfully", tasksCreated := n },
            store ++ staged)) := by
  subst hsel
  subst hstage
  unfold generateTasksWith
  rw [hfind]

theorem stageTasks_singleton (cal : DueDateCalculator) (user : AuthUser) (eid : String)
    (ent : Entity) (y : Int) (c : Compliance) (store : List Task) :
    stageTasks cal user eid ent y [c] store =
      (cal.calculateDueDates c y).filterMap (fun d =>
        match store.find? (taskMatches user.tenantId eid c.id d) with
        | some _ => none
        | none => some (mkTask user eid ent c d)) := by
  show _ ++ ([] : List Task) = _
  exact List.append_nil _

/-- Against an empty store every due date stages a task. -/
theorem stage_filterMap_empty_store (user : AuthUser)
    (eid : String) (ent : Entity) (c : Compliance) (dates : List JSDate) :
    (dates.filterMap (fun d =>
      match ([] : List Task).find? (taskMatches user.tenantId eid c.id d) with
      | some _ => none
      | none => some (mkTask user eid ent c d)))
    = dates.map (mkTask user eid ent c) := by
  show dates.filterMap (some ∘ mkTask user eid ent c) = _
  rw [List.filterMap_eq_map]

theorem adjust2024_apr15 :
    calFor2024.adjustForHolidaysAndWeekends ⟨2024, 3, 15⟩ = ⟨2024, 3, 15⟩ := by decide

theorem yearly_dates_2024 :
    calFor2024.calculateDueDates yearlySample 2024 = [⟨2024, 3, 15⟩] := by
  show calculateDueDatesWith _ _ _ = _
  unfold calculateDueDatesWith DueDateCalculator.calcBody
  show (rawDueDates yearlySample 2024).map _ = _
  rw [show rawDueDates yearlySample 2024 = [mkDate 2024 3 15] from rfl,
    show mkDate 2024 3 15 = (⟨2024, 3, 15⟩ : JSDate) from by decide,
    List.map_cons, List.map_nil, adjust2024_apr15]

/-- The task staged by the yearly fixture against an empty store. -/
def yearlyTask : Task := mkTask userSample "ent-1" entitySample yearlySample ⟨2024, 3, 15⟩

theorem stage_yearly_empty :
    stageTasks calFor2024 userSample "ent-1" entitySample 2024 [yearlySample] [] =
      [yearlyTask] := by
  rw [stageTasks_singleton, yearly_dates_2024, stage_filterMap_empty_store]
  rfl

theorem select_yearly :
    selectCompliances dbYearly entitySample none = [yearlySample] := by decide

theorem find_entity_yearly :
    dbYearly.entities.find?
      (fun e => e.id == "ent-1" && e.tenantId == userSample.tenantId) = some entitySample := by
  decide

/-! ## C3 — insert failures are not swallowed -/

/-- A `createMany` that rejects, e.g. with a storage-level uniqueness
violation. -/
def failingInsert (e : StoreError) : List Task → Except StoreError Nat := fun _ => .error e

theorem generate_yearly_first :
    generateTasks calFor2024 dbYearly userSample "ent-1" 2024 none [] =
      .ok ({ message := "1 tasks generated successfully", tasksCreated := 1 },
        [yearlyTask]) := by
  unfold generateTasks
  rw [generateTasksWith_eval defaultInsert calFor2024 dbYearly userSample "ent-1" 2024 none []
    entitySample [yearlySample] [yearlyTask] find_entity_yearly select_yearly stage_yearly_empty]
  rfl

/-- C3 counterexample: with a bulk insert that raises a uniqueness
violation (as the store does when a concurrent call has already inserted
the same rows), `generateTasks` surfaces the failure as an error to the
caller instead of treating it as "already generated" and succeeding. -/
theorem uniqueness_violation_not_swallowed :
    generateTasksWith (failingInsert .uniquenessViolation) calFor2024 dbYearly userSample
      "ent-1" 2024 none [] = .error (.storeFailure .uniquenessViolation) := by
  rw [generateTasksWith_eval (failingInsert .uniquenessViolation) calFor2024 dbYearly userSample
    "ent-1" 2024 none [] entitySample [yearlySample] [yearlyTask]
    find_entity_yearly select_yearly stage_yearly_empty]
  rfl

/-- C3 (amended): when the bulk insert of staged tasks fails — a
uniqueness violation included — and the same call would otherwise have
created at least one task, `generateTasks` propagates the store error to
the caller; nothing is skipped silently. -/
theorem insert_failure_propagates
    (insert : List Task → Except StoreError Nat)
    (cal : DueDateCalculator) (db : Db) (user : AuthUser) (entityId : String) (year : Int)
    (cids : Option (List String)) (store store1 : List Task) (res : GenResult)
    (e : StoreError)
    (hok : generateTasks cal db user entityId year cids store = .ok (res, store1))
    (hpos : 0 < res.tasksCreated)
    (hfail : ∀ ts, insert ts = .error e) :
    generateTasksWith insert cal db user entityId year cids store
      = .error (.storeFailure e) := by
  unfold generateTasks at hok
  cases hfind : db.entities.find? (fun e => e.id == entityId && e.tenantId == user.tenantId) with
  | none =>
    rw [show generateTasksWith defaultInsert cal db user entityId year cids store
        = .error (.notFound "Entity not found") from by
      unfold generateTasksWith; rw [hfind]] at hok
    cases hok
  | some ent =>
    rw [generateTasksWith_eval defaultInsert cal db user entityId year cids store ent
      (selectCompliances db ent cids)
      (stageTasks cal user entityId ent year (selectCompliances db ent cids) store)
      hfind rfl rfl] at hok
    rw [generateTasksWith_eval insert cal db user entityId year cids store ent
      (selectCompliances db ent cids)
      (stageTasks cal user entityId ent year (selectCompliances db ent cids) store)
      hfind rfl rfl]
    by_cases hemp :
      (stageTasks cal user entityId ent year (selectCompliances db ent cids) store).isEmpty
    · rw [if_pos hemp] at hok
      simp only [Except.ok.injEq, Prod.mk.injEq] at hok
      rw [← hok.1] at hpos
      simp at hpos
    · rw [if_neg hemp] at hok ⊢
      rw [hfail]

/-- Witness for C3 (amended) on the yearly fixture. -/
theorem insert_failure_propagates_witness :
    (generateTasks calFor2024 dbYearly userSample "ent-1" 2024 none [] =
      .ok ({ message := "1 tasks generated successfully", tasksCreated := 1 }, [yearlyTask]))
    ∧ (0 : Nat) < 1
    ∧ generateTasksWith (failingInsert .uniquenessViolation) calFor2024 dbYearly userSample
        "ent-1" 2024 none [] = .error (.storeFailure .uniquenessViolation) :=
  ⟨generate_yearly_first, by norm_num,
    insert_failure_propagates (failingInsert .uniquenessViolation) calFor2024 dbYearly
      userSample "ent-1" 2024 none [] [yearlyTask]
      { message := "1 tasks generated successfully", tasksCreated := 1 }
      .uniquenessViolation generate_yearly_first (by norm_num) (fun _ => rfl)⟩

/-! ## C2 — one task per (tenant, entity, compliance, period)? -/

/-- Two tasks fall in the same dedup period: same tenant, entity,
compliance and (year, month) of the due date. -/
def samePeriod (t1 t2 : Task) : Prop :=
  t1.tenantId = t2.tenantId ∧ t1.entityId = t2.entityId ∧
    t1.complianceId = t2.complianceId ∧
    t1.dueDate.year = t2.dueDate.year ∧ t1.dueDate.month = t2.dueDate.month

theorem monthly31_raw_2026 :
    rawDueDates monthly31 2026 =
      [⟨2026, 0, 31⟩, ⟨2026, 1, 28⟩, ⟨2026, 2, 31⟩, ⟨2026, 3, 30⟩, ⟨2026, 4, 31⟩,
        ⟨2026, 5, 30⟩, ⟨2026, 6, 31⟩, ⟨2026, 7, 31⟩, ⟨2026, 8, 30⟩, ⟨2026, 9, 31⟩,
        ⟨2026, 10, 30⟩, ⟨2026, 11, 31⟩] := by decide

theorem monthly31_dates_2026 :
    calFor2026.calculateDueDates monthly31 2026 =
      [⟨2026, 1, 2⟩, ⟨2026, 2, 2⟩, ⟨2026, 2, 31⟩, ⟨2026, 3, 30⟩, ⟨2026, 5, 1⟩,
        ⟨2026, 5, 30⟩, ⟨2026, 6, 31⟩, ⟨2026, 7, 31⟩, ⟨2026, 8, 30⟩, ⟨2026, 10, 2⟩,
        ⟨2026, 10, 30⟩, ⟨2026, 11, 31⟩] := by
  show calculateDueDatesWith _ _ _ = _
  unfold calculateDueDatesWith DueDateCalculator.calcBody
  show (rawDueDates monthly31 2026).map _ = _
  rw [monthly31_raw_2026]
  decide

theorem find_entity_monthly :
    dbMonthly.entities.find?
      (fun e => e.id == "ent-1" && e.tenantId == userSample.tenantId) = some entitySample := by
  decide

theorem select_monthly :
    selectCompliances dbMonthly entitySample none = [monthly31] := by decide

theorem stage_monthly_empty :
    stageTasks calFor2026 userSample "ent-1" entitySample 2026 [monthly31] [] =
      ([⟨2026, 1, 2⟩, ⟨2026, 2, 2⟩, ⟨2026, 2, 31⟩, ⟨2026, 3, 30⟩, ⟨2026, 5, 1⟩,
        ⟨2026, 5, 30⟩, ⟨2026, 6, 31⟩, ⟨2026, 7, 31⟩, ⟨2026, 8, 30⟩, ⟨2026, 10, 2⟩,
        ⟨2026, 10, 30⟩, ⟨2026, 11, 31⟩] : List JSDate).map
          (mkTask userSample "ent-1" entitySample monthly31) := by
  rw [stageTasks_singleton, monthly31_dates_2026, stage_filterMap_empty_store]

/-- The task store after one MONTHLY (dueDay 31) generation run for 2026
on an empty store. -/
def monthlyRunStore : List Task :=
  match generateTasks calFor2026 dbMonthly userSample "ent-1" 2026 none [] with
  | .ok (_, st) => st
  | .error _ => []

theorem monthlyRunStore_eq :
    monthlyRunStore =
      ([⟨2026, 1, 2⟩, ⟨2026, 2, 2⟩, ⟨2026, 2, 31⟩, ⟨2026, 3, 30⟩, ⟨2026, 5, 1⟩,
        ⟨2026, 5, 30⟩, ⟨2026, 6, 31⟩, ⟨2026, 7, 31⟩, ⟨2026, 8, 30⟩, ⟨2026, 10, 2⟩,
        ⟨2026, 10, 30⟩, ⟨2026, 11, 31⟩] : List JSDate).map
          (mkTask userSample "ent-1" entitySample monthly31) := by
  unfold monthlyRunStore generateTasks
  rw [generateTasksWith_eval defaultInsert calFor2026 dbMonthly userSample "ent-1" 2026 none []
    entitySample [monthly31] _ find_entity_monthly select_monthly stage_monthly_empty]
  rfl

/-- C2 counterexample: a single first `generate` run for a MONTHLY
compliance with `dueDay = 31` in 2026, on an empty store, creates two
distinct tasks in the same (tenant, entity, compliance, March-2026)
period — Feb 28 adjusts forward into March 2 while the March date stays
at March 31 — so the store does not contain at most one task per
period. -/
theorem two_tasks_in_march_2026 :
    ∃ t1 t2, t1 ∈ monthlyRunStore ∧ t2 ∈ monthlyRunStore ∧ t1 ≠ t2 ∧ samePeriod t1 t2 := by
  refine ⟨mkTask userSample "ent-1" entitySample monthly31 ⟨2026, 2, 2⟩,
    mkTask userSample "ent-1" entitySample monthly31 ⟨2026, 2, 31⟩, ?_, ?_, ?_, ?_⟩
  · rw [monthlyRunStore_eq]
    exact List.mem_map_of_mem _ (by decide)
  · rw [monthlyRunStore_eq]
    exact List.mem_map_of_mem _ (by decide)
  · decide
  · exact ⟨rfl, rfl, rfl, rfl, rfl⟩

/-- C2 (amended): after a single `generate` invocation, every task in
the resulting store either was already present or was staged for a
(tenant, entity, compliance, due-date month window) that had no matching
task in the starting store; a period already represented in the store
gains no new task.  (Within one run, several due dates in the same month
still produce several tasks.) -/
theorem new_tasks_only_for_unoccupied_periods
    (cal : DueDateCalculator) (db : Db) (user : AuthUser) (entityId : String) (year : Int)
    (cids : Option (List String)) (store store1 : List Task) (res : GenResult)
    (hok : generateTasks cal db user entityId year cids store = .ok (res, store1)) :
    ∀ t ∈ store1, t ∈ store ∨
      ∃ cid, t.complianceId = some cid ∧
        ∀ t0 ∈ store, taskMatches user.tenantId entityId cid t.dueDate t0 = false := by
  unfold generateTasks at hok
  cases hfind : db.entities.find? (fun e => e.id == entityId && e.tenantId == user.tenantId) with
  | none =>
    rw [show generateTasksWith defaultInsert cal db user entityId year cids store
        = .error (.notFound "Entity not found") from by
      unfold generateTasksWith; rw [hfind]] at hok
    cases hok
  | some ent =>
    rw [generateTasksWith_eval defaultInsert cal db user entityId year cids store ent
      (selectCompliances db ent cids)
      (stageTasks cal user entityId ent year (selectCompliances db ent cids) store)
      hfind rfl rfl] at hok
    by_cases hemp :
      (stageTasks cal user entityId ent year (selectCompliances db ent cids) store).isEmpty
    · rw [if_pos hemp] at hok
      simp only [Except.ok.injEq, Prod.mk.injEq] at hok
      rw [← hok.2]
      intro t ht
      exact .inl ht
    · rw [if_neg hemp] at hok
      simp only [defaultInsert, Except.ok.injEq, Prod.mk.injEq] at hok
      rw [← hok.2]
      intro t ht
      rcases List.mem_append.mp ht with hl | hr
      · exact .inl hl
      · right
        obtain ⟨c, _hc, hval⟩ := List.mem_flatMap.mp hr
        obtain ⟨d, _hd, hfd⟩ := List.mem_filterMap.mp hval
        cases hfindt : store.find? (taskMatches user.tenantId entityId c.id d) with
        | some t0 => rw [hfindt] at hfd; cases hfd
        | none =>
          rw [hfindt] at hfd
          cases hfd
          refine ⟨c.id, rfl, ?_⟩
          intro t0 ht0
          have hnone := List.find?_eq_none.mp hfindt t0 ht0
          simpa using hnone

/-- Witness for C2 (amended) on the yearly fixture. -/
theorem new_tasks_only_for_unoccupied_periods_witness :
    (generateTasks calFor2024 dbYearly userSample "ent-1" 2024 none [] =
      .ok ({ message := "1 tasks generated successfully", tasksCreated := 1 }, [yearlyTask]))
    ∧ (∀ t ∈ [yearlyTask], t ∈ ([] : List Task) ∨
        ∃ cid, t.complianceId = some cid ∧
          ∀ t0 ∈ ([] : List Task),
            taskMatches userSample.tenantId "ent-1" cid t.dueDate t0 = false) :=
  ⟨generate_yearly_first,
    new_tasks_only_for_unoccupied_periods calFor2024 dbYearly userSample "ent-1" 2024 none
      [] [yearlyTask] { message := "1 tasks generated successfully", tasksCreated := 1 }
      generate_yearly_first⟩

/-! ## The business-day adjustment always terminates on a business day -/

theorem getDay_lt (a : JSDate) : getDay a < 7 ∧ 0 ≤ getDay a := by
  unfold getDay
  omega

theorem getDay_addDays {a : JSDate} (hv : Valid a) (k : Nat) :
    getDay (addDays k a) = (getDay a + k) % 7 := by
  unfold getDay
  rw [toRD_addDays hv k]
  omega

/-- A bad day for the advance loop: weekend, or a listed holiday. -/
def badDay (hs : List IndianHoliday) (d : JSDate) : Prop :=
  getDay d = 0 ∨ getDay d = 6 ∨ hs.any (fun h => h.date == d) = true

instance (hs : List IndianHoliday) (d : JSDate) : Decidable (badDay hs d) := by
  unfold badDay
  infer_instance

/-- Pigeonhole: among any 17 consecutive days at most 6 are weekend days
and at most 9 can be listed holidays, so one is a business day. -/
theorem exists_good_day (a : JSDate) (hv : Valid a) (hs : List IndianHoliday)
    (hlen : hs.length ≤ 9) :
    ∃ k ≤ 16, ¬ badDay hs (addDays k a) := by
  by_contra hcon
  push_neg at hcon
  obtain ⟨c, hc0, hc6, hgd⟩ : ∃ c : Int, 0 ≤ c ∧ c ≤ 6 ∧
      ∀ k : Nat, getDay (addDays k a) = (c + k) % 7 :=
    ⟨(toRD a + 6) % 7, by omega, by omega, fun k => by
      unfold getDay
      rw [toRD_addDays hv k]
      omega⟩
  set A := (Finset.range 17).filter
    (fun (k : Nat) => (c + (k : Int)) % 7 = 0 ∨ (c + (k : Int)) % 7 = 6) with hA
  set B := (Finset.range 17).filter
    (fun k => hs.any (fun h => h.date == addDays k a) = true) with hB
  have hsub : Finset.range 17 ⊆ A ∪ B := by
    intro k hk
    have hk16 : k ≤ 16 := by
      have := Finset.mem_range.mp hk
      omega
    have hb := hcon k hk16
    unfold badDay at hb
    rcases hb with h | h | h
    · exact Finset.mem_union_left _
        (Finset.mem_filter.mpr ⟨hk, Or.inl (by rw [← hgd k]; exact h)⟩)
    · exact Finset.mem_union_left _
        (Finset.mem_filter.mpr ⟨hk, Or.inr (by rw [← hgd k]; exact h)⟩)
    · exact Finset.mem_union_right _ (Finset.mem_filter.mpr ⟨hk, h⟩)
  have hcard : (17 : Nat) ≤ A.card + B.card := by
    calc (17 : Nat) = (Finset.range 17).card := (Finset.card_range 17).symm
    _ ≤ (A ∪ B).card := Finset.card_le_card hsub
    _ ≤ A.card + B.card := Finset.card_union_le _ _
  have hAcard : A.card ≤ 6 := by
    have h7 : c = 0 ∨ c = 1 ∨ c = 2 ∨ c = 3 ∨ c = 4 ∨ c = 5 ∨ c = 6 := by omega
    rw [hA]
    rcases h7 with h | h | h | h | h | h | h <;> rw [h] <;> decide
  have hBcard : B.card ≤ 9 := by
    have hmaps : ∀ k ∈ B, addDays k a ∈ (hs.map (fun h => h.date)).toFinset := by
      intro k hk
      rw [hB, Finset.mem_filter] at hk
      obtain ⟨-, hany⟩ := hk
      rw [List.any_eq_true] at hany
      obtain ⟨h, hh, hbe⟩ := hany
      rw [beq_iff_eq] at hbe
      rw [List.mem_toFinset, List.mem_map]
      exact ⟨h, hh, hbe⟩
    have hinj : Set.InjOn (fun k => addDays k a) B := by
      intro k1 hk1 k2 hk2 heq
      have hr : toRD (addDays k1 a) = toRD (addDays k2 a) := by
        show toRD ((fun k => addDays k a) k1) = toRD ((fun k => addDays k a) k2)
        rw [heq]
      rw [toRD_addDays hv k1, toRD_addDays hv k2] at hr
      omega
    calc B.card ≤ (hs.map (fun h => h.date)).toFinset.card :=
        Finset.card_le_card_of_injOn _ hmaps hinj
    _ ≤ (hs.map (fun h => h.date)).length := (hs.map (fun h => h.date)).toFinset_card_le
    _ = hs.length := by simp
    _ ≤ 9 := hlen
  omega

/-- The do-while advance loop reaches the first good day: if some good
day lies within `k0 ≥ 1` steps (and the fuel covers it), the loop result
is a good day reached in at most `k0` steps. -/
theorem holidayAdvance_spec (hs : List IndianHoliday) :
    ∀ (fuel : Nat) (a : JSDate) (k0 : Nat), 1 ≤ k0 → k0 ≤ fuel →
      ¬ badDay hs (addDays k0 a) →
      ∃ k, 1 ≤ k ∧ k ≤ k0 ∧ holidayAdvance hs fuel a = addDays k a ∧
        ¬ badDay hs (addDays k a) := by
  intro fuel
  induction fuel with
  | zero => intro a k0 h1 h0 _; omega
  | succ f ih =>
    intro a k0 h1 hf hgood
    by_cases hb : badDay hs (nextDay a)
    · have hb' : getDay (nextDay a) = 0 ∨ getDay (nextDay a) = 6
          ∨ hs.any (fun h => h.date == nextDay a) = true := hb
      have hk2 : 2 ≤ k0 := by
        rcases Nat.lt_or_ge k0 2 with hlt | hge
        · exfalso
          have hk01 : k0 = 1 := by omega
          subst hk01
          exact hgood hb
        · exact hge
      have hshift : addDays (k0 - 1) (nextDay a) = addDays k0 a := by
        have h := addDays_add 1 (k0 - 1) a
        rw [show 1 + (k0 - 1) = k0 from by omega] at h
        exact h.symm
      obtain ⟨k, hk1, hkle, heq, hgd⟩ := ih (nextDay a) (k0 - 1) (by omega) (by omega)
        (by rw [hshift]; exact hgood)
      refine ⟨k + 1, by omega, by omega, ?_, hgd⟩
      show (if getDay (nextDay a) = 0 ∨ getDay (nextDay a) = 6
          ∨ hs.any (fun h => h.date == nextDay a) = true then
          holidayAdvance hs f (nextDay a) else nextDay a) = addDays (k + 1) a
      rw [if_pos hb', heq]
      have h := addDays_add 1 k a
      rw [show 1 + k = k + 1 from by omega] at h
      exact h.symm
    · have hb' : ¬ (getDay (nextDay a) = 0 ∨ getDay (nextDay a) = 6
          ∨ hs.any (fun h => h.date == nextDay a) = true) := hb
      refine ⟨1, le_refl _, h1, ?_, hb⟩
      show (if getDay (nextDay a) = 0 ∨ getDay (nextDay a) = 6
          ∨ hs.any (fun h => h.date == nextDay a) = true then
          holidayAdvance hs f (nextDay a) else nextDay a) = addDays 1 a
      rw [if_neg hb']
      rfl

/-- The weekend-skip loop stops within two steps on a non-weekend day. -/
theorem skipWeekendF_spec (a : JSDate) (hv : Valid a) :
    (skipWeekendF 7 a = a ∨ skipWeekendF 7 a = addDays 1 a ∨ skipWeekendF 7 a = addDays 2 a)
    ∧ getDay (skipWeekendF 7 a) ≠ 0 ∧ getDay (skipWeekendF 7 a) ≠ 6 := by
  have estep : ∀ (f : Nat) (b : JSDate), (getDay b = 0 ∨ getDay b = 6) →
      skipWeekendF (f + 1) b = skipWeekendF f (nextDay b) := by
    intro f b h
    show (if getDay b = 0 ∨ getDay b = 6 then skipWeekendF f (nextDay b) else b) = _
    rw [if_pos h]
  have estop : ∀ (f : Nat) (b : JSDate), ¬ (getDay b = 0 ∨ getDay b = 6) →
      skipWeekendF (f + 1) b = b := by
    intro f b h
    show (if getDay b = 0 ∨ getDay b = 6 then skipWeekendF f (nextDay b) else b) = b
    rw [if_neg h]
  have hd1 : getDay (nextDay a) = (getDay a + 1) % 7 := by
    show getDay (addDays 1 a) = _
    rw [getDay_addDays hv 1]
    norm_num
  have hd2 : getDay (nextDay (nextDay a)) = (getDay a + 2) % 7 := by
    show getDay (addDays 2 a) = _
    rw [getDay_addDays hv 2]
    norm_num
  have h7 := getDay_lt a
  by_cases h0 : getDay a = 0 ∨ getDay a = 6
  · rcases h0 with h0 | h0
    · -- Sunday: one step to Monday
      have hnd : ¬ (getDay (nextDay a) = 0 ∨ getDay (nextDay a) = 6) := by
        rw [hd1, h0]
        norm_num
      rw [estep 6 a (Or.inl h0), estop 5 (nextDay a) hnd]
      refine ⟨Or.inr (Or.inl rfl), ?_, ?_⟩ <;> rw [show nextDay a = addDays 1 a from rfl] at * <;>
        rw [getDay_addDays hv 1, h0] <;> norm_num
    · -- Saturday: two steps to Monday
      have hnd : getDay (nextDay a) = 0 ∨ getDay (nextDay a) = 6 := by
        rw [hd1, h0]
        norm_num
      have hnd2 : ¬ (getDay (nextDay (nextDay a)) = 0 ∨ getDay (nextDay (nextDay a)) = 6) := by
        rw [hd2, h0]
        norm_num
      rw [estep 6 a (Or.inr h0), estep 5 (nextDay a) hnd, estop 4 (nextDay (nextDay a)) hnd2]
      refine ⟨Or.inr (Or.inr rfl), ?_, ?_⟩ <;>
        rw [show nextDay (nextDay a) = addDays 2 a from rfl] at * <;>
        rw [getDay_addDays hv 2, h0] <;> norm_num
  · rw [estop 6 a h0]
    push_neg at h0
    exact ⟨Or.inl rfl, h0.1, h0.2⟩

/-- Evaluating `new Date` with an in-range month index given as an `Int`. -/
theorem mkDate_eq_int {y m d : Int} {n : Nat} (hmn : m = (n : Int)) (hm : n ≤ 11)
    (hd1 : 1 ≤ d) (hd2 : d ≤ daysInMonth y n) : mkDate y m d = ⟨y, n, d⟩ := by
  rw [hmn]
  exact mkDate_eq hm hd1 hd2

theorem holidayListFor_mem {Y : Int} {h : IndianHoliday} (hm : h ∈ holidayListFor Y) :
    Valid h.date ∧ h.date.year = Y ∧ (h.date.month = 0 → h.date.day = 26) := by
  have e1 : mkDate Y 0 26 = ⟨Y, 0, 26⟩ :=
    mkDate_eq_int (by norm_num) (by norm_num) (by norm_num) (by simp [daysInMonth])
  have e2 : mkDate Y 7 15 = ⟨Y, 7, 15⟩ :=
    mkDate_eq_int (by norm_num) (by norm_num) (by norm_num) (by simp [daysInMonth])
  have e3 : mkDate Y 9 2 = ⟨Y, 9, 2⟩ :=
    mkDate_eq_int (by norm_num) (by norm_num) (by norm_num) (by simp [daysInMonth])
  have e4 : mkDate Y 2 8 = ⟨Y, 2, 8⟩ :=
    mkDate_eq_int (by norm_num) (by norm_num) (by norm_num) (by simp [daysInMonth])
  have e5 : mkDate Y 3 14 = ⟨Y, 3, 14⟩ :=
    mkDate_eq_int (by norm_num) (by norm_num) (by norm_num) (by simp [daysInMonth])
  have e6 : mkDate Y 7 19 = ⟨Y, 7, 19⟩ :=
    mkDate_eq_int (by norm_num) (by norm_num) (by norm_num) (by simp [daysInMonth])
  have e7 : mkDate Y 9 24 = ⟨Y, 9, 24⟩ :=
    mkDate_eq_int (by norm_num) (by norm_num) (by norm_num) (by simp [daysInMonth])
  have e8 : mkDate Y 10 12 = ⟨Y, 10, 12⟩ :=
    mkDate_eq_int (by norm_num) (by norm_num) (by norm_num) (by simp [daysInMonth])
  have e9 : mkDate Y 11 25 = ⟨Y, 11, 25⟩ :=
    mkDate_eq_int (by norm_num) (by norm_num) (by norm_num) (by simp [daysInMonth])
  simp only [holidayListFor, List.mem_cons, List.not_mem_nil, or_false] at hm
  rcases hm with rfl | rfl | rfl | rfl | rfl | rfl | rfl | rfl | rfl <;>
    simp only [e1, e2, e3, e4, e5, e6, e7, e8, e9] <;>
    exact ⟨⟨by norm_num, by norm_num, by simp [daysInMonth]⟩, by simp, by simp⟩

theorem getHolidays_len (cal : DueDateCalculator) (Y : Int) :
    (cal.getHolidays Y).length ≤ 9 := by
  unfold DueDateCalculator.getHolidays
  split
  · simp [holidayListFor]
  · simp

theorem getHolidays_mem {cal : DueDateCalculator} {Y : Int} {h : IndianHoliday}
    (hm : h ∈ cal.getHolidays Y) :
    Valid h.date ∧ h.date.year = Y ∧ (h.date.month = 0 → h.date.day = 26) := by
  unfold DueDateCalculator.getHolidays at hm
  split at hm
  · exact holidayListFor_mem hm
  · cases hm

/-- Stepping at most 27 days from a calendar date crosses at most one
month boundary. -/
theorem addDays_cases27 {y : Int} {m : Nat} {d : Int} (k : Nat)
    (hv : Valid (⟨y, m, d⟩ : JSDate)) (hk : k ≤ 27) :
    (addDays k ⟨y, m, d⟩ = ⟨y, m, d + k⟩)
    ∨ (m ≤ 10 ∧ addDays k ⟨y, m, d⟩ = ⟨y, m + 1, d + k - daysInMonth y m⟩)
    ∨ (m = 11 ∧ addDays k ⟨y, m, d⟩ = ⟨y + 1, 0, d + k - 31⟩) := by
  obtain ⟨hm, hd1, hd2⟩ := hv
  simp only at hm hd1 hd2
  by_cases hcr : d + k ≤ daysInMonth y m
  · exact Or.inl (addDays_in_month k hm hd1 hcr)
  · have hb : d + k ≤ daysInMonth y m + 28 := by
      push_cast
      omega
    have h := addDays_cross k hm hd1 hd2 (by omega) hb
    by_cases hm10 : m ≤ 10
    · rw [if_pos hm10] at h
      exact Or.inr (Or.inl ⟨hm10, h⟩)
    · rw [if_neg hm10] at h
      exact Or.inr (Or.inr ⟨by omega, h⟩)

/-- Main adjustment result: on any calendar date the holiday/weekend
adjustment moves forward at most 19 days and lands on a valid calendar
day that is neither a weekend day nor a listed holiday of its own
year. -/
theorem adjust_spec (cal : DueDateCalculator) (a : JSDate) (hv : Valid a) :
    Valid (cal.adjustForHolidaysAndWeekends a)
    ∧ (∃ k ≤ 19, cal.adjustForHolidaysAndWeekends a = addDays k a)
    ∧ getDay (cal.adjustForHolidaysAndWeekends a) ≠ 0
    ∧ getDay (cal.adjustForHolidaysAndWeekends a) ≠ 6
    ∧ cal.isHoliday (cal.adjustForHolidaysAndWeekends a) = false := by
  obtain ⟨hj, hg0, hg6⟩ := skipWeekendF_spec a hv
  obtain ⟨j, hj2, hjeq⟩ : ∃ j ≤ 2, skipWeekendF 7 a = addDays j a := by
    rcases hj with h | h | h
    exacts [⟨0, by norm_num, h⟩, ⟨1, by norm_num, h⟩, ⟨2, by norm_num, h⟩]
  have hvb : Valid (skipWeekendF 7 a) := by
    rw [hjeq]
    exact valid_addDays hv j
  have hadj : cal.adjustForHolidaysAndWeekends a =
      (if (cal.getHolidays (skipWeekendF 7 a).year).any
          (fun h => h.date == skipWeekendF 7 a) = true then
        holidayAdvance (cal.getHolidays (skipWeekendF 7 a).year) 25 (skipWeekendF 7 a)
      else skipWeekendF 7 a) := rfl
  by_cases hhol : (cal.getHolidays (skipWeekendF 7 a).year).any
      (fun h => h.date == skipWeekendF 7 a) = true
  · -- holiday branch: run the advance loop
    have hlen := getHolidays_len cal (skipWeekendF 7 a).year
    obtain ⟨k', hk16, hgood⟩ := exists_good_day (nextDay (skipWeekendF 7 a))
      (valid_nextDay hvb) (cal.getHolidays (skipWeekendF 7 a).year) hlen
    have hshift : addDays k' (nextDay (skipWeekendF 7 a)) = addDays (k' + 1) (skipWeekendF 7 a) := by
      have h := addDays_add 1 k' (skipWeekendF 7 a)
      rw [show 1 + k' = k' + 1 from by omega] at h
      exact h.symm
    rw [hshift] at hgood
    obtain ⟨k, hk1, hkle, heq, hkgood⟩ :=
      holidayAdvance_spec (cal.getHolidays (skipWeekendF 7 a).year) 25 (skipWeekendF 7 a)
        (k' + 1) (by omega) (by omega) hgood
    rw [hadj, if_pos hhol, heq]
    have hvr : Valid (addDays k (skipWeekendF 7 a)) := valid_addDays hvb k
    have hcomb : addDays k (skipWeekendF 7 a) = addDays (j + k) a := by
      rw [addDays_add j k a, ← hjeq]
    unfold badDay at hkgood
    push_neg at hkgood
    obtain ⟨hr0, hr6, hrhol⟩ := hkgood
    refine ⟨hvr, ⟨j + k, by omega, hcomb⟩, hr0, hr6, ?_⟩
    have hk17 : k ≤ 17 := by omega
    have hcases := addDays_cases27 (y := (skipWeekendF 7 a).year)
      (m := (skipWeekendF 7 a).month) (d := (skipWeekendF 7 a).day) k hvb (by omega)
    have hrhol' : ((cal.getHolidays (skipWeekendF 7 a).year).any
        (fun h => h.date == addDays k (skipWeekendF 7 a))) = false :=
      Bool.eq_false_iff.mpr hrhol
    rcases hcases with hEq | ⟨hm10, hEq⟩ | ⟨hm11, hEq⟩
    · unfold DueDateCalculator.isHoliday
      rw [hEq]
      exact hrhol' ▸ (by rw [hEq])
    · unfold DueDateCalculator.isHoliday
      rw [hEq]
      exact hrhol' ▸ (by rw [hEq])
    · -- crossed from December into January of the next year
      unfold DueDateCalculator.isHoliday
      rw [hEq]
      rw [List.any_eq_false]
      intro h hmem
      obtain ⟨hvh, hyear, hjan⟩ := getHolidays_mem hmem
      rw [beq_iff_eq]
      intro hcontra
      have hmonth : h.date.month = 0 := by rw [hcontra]
      have hday := hjan hmonth
      rw [hcontra] at hday
      have hd31 : (skipWeekendF 7 a).day ≤ 31 := by
        obtain ⟨_, _, hdd⟩ := hvb
        calc (skipWeekendF 7 a).day ≤ _ := hdd
        _ ≤ 31 := daysInMonth_le _ _
      simp only at hday
      omega
  · rw [hadj, if_neg hhol]
    refine ⟨hvb, ⟨j, by omega, hjeq⟩, hg0, hg6, Bool.eq_false_iff.mpr hhol⟩

/-! ## Validity of every raw due date -/

theorem findWeekday_valid (fuel : Nat) (t : Int) : ∀ {a : JSDate}, Valid a →
    Valid (findWeekday fuel t a) := by
  induction fuel with
  | zero => intro a h; exact h
  | succ f ih =>
    intro a h
    show Valid (if getDay a ≠ t then findWeekday f t (nextDay a) else a)
    split
    · exact ih (valid_nextDay h)
    · exact h

theorem weeklyLoop_valid (fuel : Nat) : ∀ {cur endD : JSDate}, Valid cur →
    ∀ d ∈ weeklyLoop fuel cur endD, Valid d := by
  induction fuel with
  | zero => intro cur endD _ d hd; cases hd
  | succ f ih =>
    intro cur endD h d hd
    rw [show weeklyLoop (f + 1) cur endD =
        (if toRD cur ≤ toRD endD then cur :: weeklyLoop f (addDays 7 cur) endD else [])
      from rfl] at hd
    split at hd
    · rcases List.mem_cons.mp hd with rfl | hmem
      · exact h
      · exact ih (valid_addDays h 7) d hmem
    · cases hd

theorem dailyLoop_valid (fuel : Nat) : ∀ {cur endD : JSDate}, Valid cur →
    ∀ d ∈ dailyLoop fuel cur endD, Valid d := by
  induction fuel with
  | zero => intro cur endD _ d hd; cases hd
  | succ f ih =>
    intro cur endD h d hd
    rw [show dailyLoop (f + 1) cur endD =
        (if toRD cur ≤ toRD endD then
          (if getDay cur ≠ 0 ∧ getDay cur ≠ 6 then [cur] else [])
            ++ dailyLoop f (nextDay cur) endD
        else []) from rfl] at hd
    split at hd
    · rcases List.mem_append.mp hd with hl | hmem
      · split at hl
        · rcases List.mem_singleton.mp hl with rfl
          exact h
        · cases hl
      · exact ih (valid_nextDay h) d hmem
    · cases hd

/-- Every raw (pre-adjustment) due date is a real calendar date, given
that a ONE_TIME rule's specific date is one (JS `Date` instants always
are). -/
theorem rawDueDates_valid (c : Compliance) (y : Int)
    (hsd : ∀ r sd, c.dueDateRules = some r → r.specificDate = some sd → Valid sd) :
    ∀ d ∈ rawDueDates c y, Valid d := by
  intro d hd
  unfold rawDueDates at hd
  cases hper : c.periodicity <;> rw [hper] at hd
  case MONTHLY =>
    obtain ⟨m, _, rfl⟩ := List.mem_map.mp hd
    dsimp only
    split
    · exact valid_mkDate _ _ _
    · exact valid_mkDate _ _ _
  case QUARTERLY =>
    obtain ⟨m, _, rfl⟩ := List.mem_map.mp hd
    exact valid_mkDate _ _ _
  case HALF_YEARLY =>
    rcases List.mem_cons.mp hd with rfl | hd2
    · exact valid_mkDate _ _ _
    · rcases List.mem_singleton.mp hd2 with rfl
      exact valid_mkDate _ _ _
  case YEARLY =>
    rcases List.mem_singleton.mp hd with rfl
    exact valid_mkDate _ _ _
  case WEEKLY =>
    exact weeklyLoop_valid 60 (findWeekday_valid 7 _ (valid_mkDate _ _ _)) d hd
  case DAILY =>
    exact dailyLoop_valid 370 (valid_mkDate _ _ _) d hd
  case ONE_TIME =>
    have hd2 : d ∈ calculateOneTimeDueDates c y := hd
    unfold calculateOneTimeDueDates at hd2
    cases hre : extractSpecificDateFromRules c.dueDateRules with
    | none => rw [hre] at hd2; cases hd2
    | some sd =>
      rw [hre] at hd2
      have hd3 : d ∈ (if sd.year = y then [sd] else []) := hd2
      by_cases hy : sd.year = y
      · rw [if_pos hy] at hd3
        rcases List.mem_singleton.mp hd3 with rfl
        unfold extractSpecificDateFromRules at hre
        cases hr : c.dueDateRules with
        | none => rw [hr] at hre; exact Option.noConfusion hre
        | some r => rw [hr] at hre; exact hsd r d hr hre
      · rw [if_neg hy] at hd3
        cases hd3
  case EVENT_BASED => cases hd

/-! ## C5 — every returned due date is a business day -/

/-- C5: every date returned by `calculateDueDates` is a business day: not
a Saturday, not a Sunday, and not a listed holiday of the year the date
itself falls in after adjustment, including when the day-by-day
advancement crosses a month or year boundary.  (ONE_TIME rules are
assumed to carry real calendar dates, as JS `Date` values always do.) -/
theorem due_dates_are_business_days (cal : DueDateCalculator) (c : Compliance) (y : Int)
    (hsd : ∀ r sd, c.dueDateRules = some r → r.specificDate = some sd → Valid sd) :
    ∀ d ∈ cal.calculateDueDates c y,
      getDay d ≠ 0 ∧ getDay d ≠ 6 ∧ cal.isHoliday d = false := by
  intro d hd
  have hd' : d ∈ (rawDueDates c y).map cal.adjustForHolidaysAndWeekends := hd
  obtain ⟨r, hr, rfl⟩ := List.mem_map.mp hd'
  obtain ⟨-, -, h0, h6, hh⟩ := adjust_spec cal r (rawDueDates_valid c y hsd r hr)
  exact ⟨h0, h6, hh⟩

/-- Witness for C5 on the default QUARTERLY fixture. -/
theorem due_dates_are_business_days_witness :
    (∀ r sd, quarterlyCompliance.dueDateRules = some r → r.specificDate = some sd → Valid sd)
    ∧ ∀ d ∈ calFor2024.calculateDueDates quarterlyCompliance 2024,
        getDay d ≠ 0 ∧ getDay d ≠ 6 ∧ calFor2024.isHoliday d = false :=
  ⟨fun _ _ h _ => Option.noConfusion h,
    due_dates_are_business_days calFor2024 quarterlyCompliance 2024
      (fun _ _ h _ => Option.noConfusion h)⟩

/-! ## C7 — adjustment is idempotent -/

/-- C7: the business-day adjustment is idempotent: adjusting an
already-adjusted calendar date returns it unchanged. -/
theorem adjust_idempotent (cal : DueDateCalculator) (d : JSDate) (hv : Valid d) :
    cal.adjustForHolidaysAndWeekends (cal.adjustForHolidaysAndWeekends d)
      = cal.adjustForHolidaysAndWeekends d := by
  obtain ⟨hvr, -, h0, h6, hh⟩ := adjust_spec cal d hv
  set r := cal.adjustForHolidaysAndWeekends d with hrdef
  have hskip : skipWeekendF 7 r = r := by
    show (if getDay r = 0 ∨ getDay r = 6 then skipWeekendF 6 (nextDay r) else r) = r
    rw [if_neg (not_or.mpr ⟨h0, h6⟩)]
  have hadj2 : cal.adjustForHolidaysAndWeekends r =
      (if (cal.getHolidays (skipWeekendF 7 r).year).any
          (fun h => h.date == skipWeekendF 7 r) = true then
        holidayAdvance (cal.getHolidays (skipWeekendF 7 r).year) 25 (skipWeekendF 7 r)
      else skipWeekendF 7 r) := rfl
  rw [hadj2, hskip]
  have hcond : ((cal.getHolidays r.year).any (fun h => h.date == r)) = false := hh
  rw [if_neg (by rw [hcond]; exact Bool.false_ne_true)]

/-- Witness for C7 at a concrete date. -/
theorem adjust_idempotent_witness :
    Valid (⟨2024, 0, 26⟩ : JSDate)
    ∧ calFor2024.adjustForHolidaysAndWeekends
        (calFor2024.adjustForHolidaysAndWeekends ⟨2024, 0, 26⟩)
      = calFor2024.adjustForHolidaysAndWeekends ⟨2024, 0, 26⟩ :=
  ⟨by decide, adjust_idempotent calFor2024 ⟨2024, 0, 26⟩ (by decide)⟩

/-! ## C1 (amended) — quarterly anchors and months of adjusted dates -/

theorem adjust_month_window (cal : DueDateCalculator) {Y : Int} {m0 : Nat} {dd : Int}
    (hm : m0 ≤ 10) (h1 : 1 ≤ dd) (h2 : dd ≤ daysInMonth Y m0) :
    (cal.adjustForHolidaysAndWeekends ⟨Y, m0, dd⟩).month = m0
    ∨ (cal.adjustForHolidaysAndWeekends ⟨Y, m0, dd⟩).month = m0 + 1 := by
  have hv : Valid (⟨Y, m0, dd⟩ : JSDate) := ⟨show m0 ≤ 11 by omega, h1, h2⟩
  obtain ⟨-, ⟨k, hk19, heq⟩, -, -, -⟩ := adjust_spec cal _ hv
  rw [heq]
  rcases addDays_cases27 k hv (by omega) with hEq | ⟨-, hEq⟩ | ⟨hm11, hEq⟩
  · rw [hEq]
    exact Or.inl rfl
  · rw [hEq]
    exact Or.inr rfl
  · omega

/-- C1 (amended): for every QUARTERLY compliance and year, the raw
anchors are April(Y), July(Y), October(Y) and January(Y+1) — the fourth
anchor is January of the next year, not April — each at `rule.dueDay`
(default 15), and no adjusted due date ever falls in March, June,
September or December. -/
theorem quarterly_anchor_months (cal : DueDateCalculator) (c : Compliance) (y dd : Int)
    (hper : c.periodicity = .QUARTERLY)
    (hdd : (extractDueDayFromRules c.dueDateRules).getD 15 = dd)
    (h1 : 1 ≤ dd) (h30 : dd ≤ 30) :
    calculateQuarterlyDueDates c y = [⟨y, 3, dd⟩, ⟨y, 6, dd⟩, ⟨y, 9, dd⟩, ⟨y + 1, 0, dd⟩]
    ∧ ∀ d ∈ cal.calculateDueDates c y,
        d.month ≠ 2 ∧ d.month ≠ 5 ∧ d.month ≠ 8 ∧ d.month ≠ 11 := by
  have hqe := calculateQuarterlyDueDates_eq c y dd hdd h1 h30
  refine ⟨hqe, ?_⟩
  intro d hd
  have hraw : rawDueDates c y = [⟨y, 3, dd⟩, ⟨y, 6, dd⟩, ⟨y, 9, dd⟩, ⟨y + 1, 0, dd⟩] := by
    unfold rawDueDates
    rw [hper]
    exact hqe
  have hd' : d ∈ (rawDueDates c y).map cal.adjustForHolidaysAndWeekends := hd
  rw [hraw] at hd'
  obtain ⟨r, hr, rfl⟩ := List.mem_map.mp hd'
  simp only [List.mem_cons, List.not_mem_nil, or_false] at hr
  rcases hr with rfl | rfl | rfl | rfl
  · rcases adjust_month_window cal (by norm_num) h1
      (show dd ≤ daysInMonth y 3 by simp only [daysInMonth]; omega) with h | h <;>
      rw [h] <;> norm_num
  · rcases adjust_month_window cal (by norm_num) h1
      (show dd ≤ daysInMonth y 6 by simp only [daysInMonth]; omega) with h | h <;>
      rw [h] <;> norm_num
  · rcases adjust_month_window cal (by norm_num) h1
      (show dd ≤ daysInMonth y 9 by simp only [daysInMonth]; omega) with h | h <;>
      rw [h] <;> norm_num
  · rcases adjust_month_window cal (by norm_num) h1
      (show dd ≤ daysInMonth (y + 1) 0 by simp only [daysInMonth]; omega) with h | h <;>
      rw [h] <;> norm_num

/-- Witness for C1 (amended) on the default QUARTERLY fixture in 2024. -/
theorem quarterly_anchor_months_witness :
    (quarterlyCompliance.periodicity = .QUARTERLY
      ∧ (extractDueDayFromRules quarterlyCompliance.dueDateRules).getD 15 = 15)
    ∧ (calculateQuarterlyDueDates quarterlyCompliance 2024 =
        [⟨2024, 3, 15⟩, ⟨2024, 6, 15⟩, ⟨2024, 9, 15⟩, ⟨2024 + 1, 0, 15⟩]
      ∧ ∀ d ∈ calFor2024.calculateDueDates quarterlyCompliance 2024,
          d.month ≠ 2 ∧ d.month ≠ 5 ∧ d.month ≠ 8 ∧ d.month ≠ 11) :=
  ⟨⟨rfl, rfl⟩,
    quarterly_anchor_months calFor2024 quarterlyCompliance 2024 15 rfl rfl
      (by norm_num) (by norm_num)⟩

/-! ## C4 — regeneration is a no-op -/

/-- A valid date lies inside its own month window. -/
theorem self_in_month_window {d : JSDate} (hv : Valid d) :
    toRD (monthWindowStart d) ≤ toRD d ∧ toRD d < toRD (monthWindowNext d) := by
  obtain ⟨y, m, dday⟩ := d
  obtain ⟨hm, hd1, hd2⟩ := hv
  simp only at hm hd1 hd2
  have hstart : monthWindowStart ⟨y, m, dday⟩ = ⟨y, m, 1⟩ := by
    unfold monthWindowStart
    exact mkDate_eq_int rfl hm (by norm_num) (daysInMonth_pos _ _)
  refine ⟨by rw [hstart]; simp only [toRD]; omega, ?_⟩
  by_cases hm10 : m ≤ 10
  · have hnext : monthWindowNext ⟨y, m, dday⟩ = ⟨y, m + 1, 1⟩ := by
      unfold monthWindowNext
      refine mkDate_eq_int ?_ (by omega) (by norm_num) (daysInMonth_pos _ _)
      push_cast
      ring
    have hnd : nextDay ⟨y, m, daysInMonth y m⟩ = ⟨y, m + 1, 1⟩ := by
      rw [nextDay_last hm, if_pos hm10]
    have hrd : toRD ⟨y, m + 1, 1⟩ = toRD ⟨y, m, daysInMonth y m⟩ + 1 := by
      rw [← hnd]
      exact toRD_nextDay ⟨hm, daysInMonth_pos y m, le_refl _⟩
    rw [hnext, hrd]
    have : toRD ⟨y, m, dday⟩ ≤ toRD ⟨y, m, daysInMonth y m⟩ := by
      simp only [toRD]
      omega
    omega
  · have hm11 : m = 11 := by omega
    subst hm11
    have h12 : mkDate y 12 1 = ⟨y + 1, 0, 1⟩ := by
      unfold mkDate
      rw [if_pos (by norm_num : (1 : Int) ≤ 1)]
      rw [show ((1 : Int) - 1).toNat = 0 from by norm_num,
        show (12 : Int) / 12 = 1 from by norm_num,
        show ((12 : Int) % 12).toNat = 0 from by norm_num]
      rfl
    have hnext : monthWindowNext ⟨y, 11, dday⟩ = ⟨y + 1, 0, 1⟩ := by
      show mkDate y (((11 : Nat) : Int) + 1) 1 = _
      rw [show ((11 : Nat) : Int) + 1 = 12 from by norm_num]
      exact h12
    have hrd : toRD (⟨y + 1, 0, 1⟩ : JSDate) = toRD ⟨y, 11, 31⟩ + 1 :=
      toRD_nextDay (a := ⟨y, 11, 31⟩) ⟨by norm_num, by norm_num, by simp [daysInMonth]⟩
    rw [hnext, hrd]
    simp only [daysInMonth] at hd2
    have : toRD ⟨y, 11, dday⟩ ≤ toRD ⟨y, 11, 31⟩ := by
      simp only [toRD]
      omega
    omega

/-- A freshly staged task matches its own dedup filter. -/
theorem taskMatches_mkTask (user : AuthUser) (entityId : String) (ent : Entity)
    (c : Compliance) {d : JSDate} (hv : Valid d) :
    taskMatches user.tenantId entityId c.id d (mkTask user entityId ent c d) = true := by
  obtain ⟨hw1, hw2⟩ := self_in_month_window hv
  unfold taskMatches mkTask
  simp [hw1, hw2]

theorem selectCompliances_subset {db : Db} {e : Entity} {cids : Option (List String)}
    {c : Compliance} (h : c ∈ selectCompliances db e cids) : c ∈ db.compliances := by
  match cids with
  | none => exact (List.mem_filter.mp (show c ∈ db.compliances.filter _ from h)).1
  | some [] => exact (List.mem_filter.mp (show c ∈ db.compliances.filter _ from h)).1
  | some (i0 :: ids) =>
    exact (List.mem_filter.mp (show c ∈ db.compliances.filter _ from h)).1

theorem mkTask_mem_staged (cal : DueDateCalculator) (user : AuthUser) (entityId : String)
    (ent : Entity) (y : Int) (comps : List Compliance) (store : List Task)
    {c : Compliance} {d : JSDate} (hc : c ∈ comps) (hd : d ∈ cal.calculateDueDates c y)
    (hnone : store.find? (taskMatches user.tenantId entityId c.id d) = none) :
    mkTask user entityId ent c d ∈ stageTasks cal user entityId ent y comps store := by
  unfold stageTasks
  rw [List.mem_flatMap]
  exact ⟨c, hc, List.mem_filterMap.mpr ⟨d, hd, by rw [hnone]⟩⟩

theorem stageTasks_eq_nil_iff (cal : DueDateCalculator) (user : AuthUser) (entityId : String)
    (ent : Entity) (y : Int) (comps : List Compliance) (store : List Task) :
    stageTasks cal user entityId ent y comps store = [] ↔
      ∀ c ∈ comps, ∀ d ∈ cal.calculateDueDates c y,
        store.find? (taskMatches user.tenantId entityId c.id d) ≠ none := by
  unfold stageTasks
  rw [List.flatMap_eq_nil_iff]
  constructor
  · intro h c hc d hd hnone
    have h2 := h c hc
    rw [List.filterMap_eq_nil_iff] at h2
    have h3 := h2 d hd
    rw [hnone] at h3
    exact Option.noConfusion h3
  · intro h c hc
    rw [List.filterMap_eq_nil_iff]
    intro d hd
    cases hfs : store.find? (taskMatches user.tenantId entityId c.id d) with
    | some t0 => rfl
    | none => exact absurd hfs (h c hc d hd)

/-- C4: for every entity and year, calling `generate` a second time
immediately after a completed first call, with no catalog or task-store
changes in between, creates no tasks: it reports zero created tasks and
leaves the store unchanged.  (ONE_TIME rules are assumed to carry real
calendar dates, as JS `Date` values always do.) -/
theorem second_generate_creates_zero
    (cal : DueDateCalculator) (db : Db) (user : AuthUser) (entityId : String) (year : Int)
    (cids : Option (List String)) (store store1 : List Task) (res : GenResult)
    (hsd : ∀ c ∈ db.compliances, ∀ r sd,
      c.dueDateRules = some r → r.specificDate = some sd → Valid sd)
    (hok : generateTasks cal db user entityId year cids store = .ok (res, store1)) :
    generateTasks cal db user entityId year cids store1 =
      .ok ({ message := "No new tasks to generate", tasksCreated := 0 }, store1) := by
  unfold generateTasks at hok ⊢
  cases hfind : db.entities.find? (fun e => e.id == entityId && e.tenantId == user.tenantId) with
  | none =>
    rw [show generateTasksWith defaultInsert cal db user entityId year cids store
        = .error (.notFound "Entity not found") from by
      unfold generateTasksWith; rw [hfind]] at hok
    cases hok
  | some ent =>
    rw [generateTasksWith_eval defaultInsert cal db user entityId year cids store ent
      (selectCompliances db ent cids)
      (stageTasks cal user entityId ent year (selectCompliances db ent cids) store)
      hfind rfl rfl] at hok
    rw [generateTasksWith_eval defaultInsert cal db user entityId year cids store1 ent
      (selectCompliances db ent cids)
      (stageTasks cal user entityId ent year (selectCompliances db ent cids) store1)
      hfind rfl rfl]
    have hstage2 :
        stageTasks cal user entityId ent year (selectCompliances db ent cids) store1 = [] := by
      rw [stageTasks_eq_nil_iff]
      intro c hc d hd
      have hvd : Valid d := by
        have hd' : d ∈ (rawDueDates c year).map cal.adjustForHolidaysAndWeekends := hd
        obtain ⟨r, hr, rfl⟩ := List.mem_map.mp hd'
        exact (adjust_spec cal r
          (rawDueDates_valid c year (hsd c (selectCompliances_subset hc)) r hr)).1
      by_cases hemp :
          (stageTasks cal user entityId ent year (selectCompliances db ent cids) store).isEmpty
      · rw [if_pos hemp] at hok
        simp only [Except.ok.injEq, Prod.mk.injEq] at hok
        obtain ⟨-, hst⟩ := hok
        subst hst
        rw [List.isEmpty_iff, stageTasks_eq_nil_iff] at hemp
        exact hemp c hc d hd
      · rw [if_neg hemp] at hok
        simp only [defaultInsert, Except.ok.injEq, Prod.mk.injEq] at hok
        obtain ⟨-, hst⟩ := hok
        subst hst
        cases hfs : store.find? (taskMatches user.tenantId entityId c.id d) with
        | some t0 =>
          intro hcontra
          exact (List.find?_eq_none.mp hcontra t0
            (List.mem_append.mpr (Or.inl (List.mem_of_find?_eq_some hfs))))
            (List.find?_some hfs)
        | none =>
          intro hcontra
          exact (List.find?_eq_none.mp hcontra (mkTask user entityId ent c d)
            (List.mem_append.mpr (Or.inr (mkTask_mem_staged cal user entityId ent year
              (selectCompliances db ent cids) store hc hd hfs))))
            (taskMatches_mkTask user entityId ent c hvd)
    rw [hstage2]
    rw [if_pos (show (([] : List Task)).isEmpty = true from rfl)]

/-- Witness for C4 on the yearly fixture: first call creates one task,
the immediate second call creates zero. -/
theorem second_generate_creates_zero_witness :
    ((∀ c ∈ dbYearly.compliances, ∀ r sd,
        c.dueDateRules = some r → r.specificDate = some sd → Valid sd)
      ∧ generateTasks calFor2024 dbYearly userSample "ent-1" 2024 none [] =
        .ok ({ message := "1 tasks generated successfully", tasksCreated := 1 }, [yearlyTask]))
    ∧ generateTasks calFor2024 dbYearly userSample "ent-1" 2024 none [yearlyTask] =
        .ok ({ message := "No new tasks to generate", tasksCreated := 0 }, [yearlyTask]) := by
  have hsd : ∀ c ∈ dbYearly.compliances, ∀ r sd,
      c.dueDateRules = some r → r.specificDate = some sd → Valid sd := by
    intro c hc r sd h1 _
    rcases List.mem_singleton.mp hc with rfl
    exact Option.noConfusion h1
  exact ⟨⟨hsd, generate_yearly_first⟩,
    second_generate_creates_zero calFor2024 dbYearly userSample "ent-1" 2024 none []
      [yearlyTask] { message := "1 tasks generated successfully", tasksCreated := 1 }
      hsd generate_yearly_first⟩

/-! ## C9 — rule fields with value 0 are replaced by the defaults -/

theorem findWeekday_spec (t : Int) : ∀ (fuel : Nat) (a : JSDate), Valid a →
    (∃ k, k < fuel ∧ getDay (addDays k a) = t) →
    getDay (findWeekday fuel t a) = t := by
  intro fuel
  induction fuel with
  | zero =>
    intro a _ h
    obtain ⟨k, hk, -⟩ := h
    omega
  | succ f ih =>
    intro a hv h
    obtain ⟨k, hk, hgd⟩ := h
    show getDay (if getDay a ≠ t then findWeekday f t (nextDay a) else a) = t
    split
    · next hne =>
      apply ih (nextDay a) (valid_nextDay hv)
      have hk0 : k ≠ 0 := by
        intro h0
        subst h0
        exact hne hgd
      obtain ⟨k', rfl⟩ : ∃ k', k = k' + 1 := ⟨k - 1, by omega⟩
      exact ⟨k', by omega, hgd⟩
    · next hne => exact not_not.mp hne

theorem exists_weekday (a : JSDate) (hv : Valid a) (t : Int) (ht0 : 0 ≤ t) (ht6 : t ≤ 6) :
    ∃ k, k < 7 ∧ getDay (addDays k a) = t := by
  have hlt := getDay_lt a
  refine ⟨((t - getDay a) % 7).toNat, by omega, ?_⟩
  rw [getDay_addDays hv]
  omega

theorem weeklyLoop_getDay (fuel : Nat) : ∀ {cur endD : JSDate}, Valid cur →
    ∀ d ∈ weeklyLoop fuel cur endD, getDay d = getDay cur := by
  induction fuel with
  | zero => intro cur endD _ d hd; cases hd
  | succ f ih =>
    intro cur endD h d hd
    rw [show weeklyLoop (f + 1) cur endD =
        (if toRD cur ≤ toRD endD then cur :: weeklyLoop f (addDays 7 cur) endD else [])
      from rfl] at hd
    split at hd
    · rcases List.mem_cons.mp hd with rfl | hmem
      · rfl
      · have hrec := ih (valid_addDays h 7) d hmem
        rw [hrec, getDay_addDays h 7]
        have := getDay_lt cur
        omega
    · cases hd

/-- C9: a due-date-rule field holding 0 is falsy and treated as absent:
a WEEKLY rule with `dayOfWeek = 0` (Sunday) yields the default schedule
— all Mondays — instead of Sundays, and a YEARLY rule with
`dueMonth = 0` (January) yields the April default instead of January. -/
theorem zero_rule_fields_use_defaults (y : Int) (c : Compliance) (r : DueDateRules)
    (hr : c.dueDateRules = some r) :
    (r.dayOfWeek = some 0 →
      calculateWeeklyDueDates c y =
        calculateWeeklyDueDates
          { c with dueDateRules := some { r with dayOfWeek := none } } y
      ∧ ∀ d ∈ calculateWeeklyDueDates c y, getDay d = 1)
    ∧ (r.dueMonth = some 0 →
      calculateYearlyDueDates c y =
        calculateYearlyDueDates
          { c with dueDateRules := some { r with dueMonth := none } } y
      ∧ calculateYearlyDueDates c y = [mkDate y 3 ((truthyInt r.dueDay).getD 15)]) := by
  constructor
  · intro hdow
    have he : extractDayOfWeekFromRules c.dueDateRules = none := by
      rw [hr]
      show truthyInt r.dayOfWeek = none
      rw [hdow]
      rfl
    have he2 : extractDayOfWeekFromRules
        ({ c with dueDateRules := some { r with dayOfWeek := none } } : Compliance).dueDateRules
        = none := rfl
    constructor
    · unfold calculateWeeklyDueDates
      rw [he, he2]
    · intro d hd
      unfold calculateWeeklyDueDates at hd
      rw [he] at hd
      have hstart : Valid (mkDate y 0 1) := valid_mkDate _ _ _
      have hfirst : Valid (findWeekday 7 ((none : Option Int).getD 1) (mkDate y 0 1)) :=
        findWeekday_valid 7 _ hstart
      have hfw : getDay (findWeekday 7 ((none : Option Int).getD 1) (mkDate y 0 1)) = 1 :=
        findWeekday_spec _ 7 (mkDate y 0 1) hstart
          (exists_weekday (mkDate y 0 1) hstart 1 (by norm_num) (by norm_num))
      rw [weeklyLoop_getDay 60 hfirst d hd, hfw]
  · intro hdm
    have he : extractDueMonthFromRules c.dueDateRules = none := by
      rw [hr]
      show truthyInt r.dueMonth = none
      rw [hdm]
      rfl
    have he2 : extractDueMonthFromRules
        ({ c with dueDateRules := some { r with dueMonth := none } } : Compliance).dueDateRules
        = none := rfl
    have hdd : extractDueDayFromRules c.dueDateRules = truthyInt r.dueDay := by
      rw [hr]
      rfl
    have hdd2 : extractDueDayFromRules
        ({ c with dueDateRules := some { r with dueMonth := none } } : Compliance).dueDateRules
        = truthyInt r.dueDay := rfl
    constructor
    · unfold calculateYearlyDueDates
      rw [he, he2, hdd, hdd2]
    · unfold calculateYearlyDueDates
      rw [he, hdd]
      rfl

def zeroRules : DueDateRules := { dayOfWeek := some 0, dueMonth := some 0 }

def zeroRuleCompliance : Compliance :=
  { id := "cmp-z", periodicity := .WEEKLY, dueDateRules := some zeroRules }

/-- Witness for C9 on a rule with `dayOfWeek = 0` and `dueMonth = 0`. -/
theorem zero_rule_fields_use_defaults_witness :
    (zeroRuleCompliance.dueDateRules = some zeroRules
      ∧ zeroRules.dayOfWeek = some 0 ∧ zeroRules.dueMonth = some 0)
    ∧ (calculateWeeklyDueDates zeroRuleCompliance 2024 =
        calculateWeeklyDueDates
          { zeroRuleCompliance with
            dueDateRules := some { zeroRules with dayOfWeek := none } } 2024
      ∧ ∀ d ∈ calculateWeeklyDueDates zeroRuleCompliance 2024, getDay d = 1)
    ∧ (calculateYearlyDueDates zeroRuleCompliance 2024 =
        calculateYearlyDueDates
          { zeroRuleCompliance with
            dueDateRules := some { zeroRules with dueMonth := none } } 2024
      ∧ calculateYearlyDueDates zeroRuleCompliance 2024 =
        [mkDate 2024 3 ((truthyInt zeroRules.dueDay).getD 15)]) :=
  ⟨⟨rfl, rfl, rfl⟩,
    (zero_rule_fields_use_defaults 2024 zeroRuleCompliance zeroRules rfl).1 rfl,
    (zero_rule_fields_use_defaults 2024 zeroRuleCompliance zeroRules rfl).2 rfl⟩

end ComplianceEngine
